import Mathlib

/-!
Verification development for `project-scheduler.py`.

The program builds a linear program with PuLP: one variable `start_time_<id>`
per task (lower bound 0), a variable `total_duration` (lower bound 0,
minimized), a constraint `start(t) >= start(p) + pert(p)` for every
predecessor reference of `t` that resolves to a task `p` (unresolved
references print a warning and are skipped), and a constraint
`total_duration >= start(t) + pert(t)` for every task row.  The external
solver (CBC) is modeled abstractly: a solver is any function from the built
LP to an outcome, and a *sound* solver returns `optimal` only with a
feasible assignment minimizing the objective.  Result extraction
(lines 52-78 of the source) and the analyzer (lines 80-101) are embedded
directly.  `esStart`/`esMakespan` are the reference forward-propagation
(earliest-start) solution used to exhibit concrete optimal points.
-/

namespace ProjectScheduler

/-- A cell of the `predecessorTaskIDs` column: `na` models a NaN/None cell
(filtered by `pd.notna`), `strc` a string cell (split on commas), `other` a
non-string cell with its Python truthiness and its `str(...)` rendering
(the `else` branch of the `isinstance` test at line 33 of the source). -/
inductive PredCell where
  | na : PredCell
  | strc : String → PredCell
  | other : Bool → String → PredCell
deriving DecidableEq

/-- One row of the tasks DataFrame, after `load_excel_data` coerced
`taskID` to `str`. Hours are modeled as rationals (exact arithmetic). -/
structure Task where
  taskID : String
  predecessorTaskIDs : PredCell
  bestCaseHours : ℚ
  expectedHours : ℚ
  worstCaseHours : ℚ
deriving DecidableEq

/-- Whitespace stripped by Python `str.strip()` (the characters occurring
in the data of interest). -/
def isSpaceChar (c : Char) : Bool :=
  c = ' ' || c = '\t' || c = '\n' || c = '\r'

/-- Python `s.split(',')` on the character list: every comma separates,
empty pieces included. -/
def splitCommaAux : List Char → List Char → List (List Char)
  | [], acc => [acc.reverse]
  | c :: cs, acc =>
      if c = ',' then acc.reverse :: splitCommaAux cs []
      else splitCommaAux cs (c :: acc)

/-- Python `s.split(',')`. -/
def pySplitComma (s : String) : List String :=
  (splitCommaAux s.data []).map String.mk

/-- Python `s.strip()`: whitespace dropped from both ends. -/
def pyStrip (s : String) : String :=
  String.mk (((s.data.dropWhile isSpaceChar).reverse.dropWhile isSpaceChar).reverse)

/-- Lines 30-34 of the source: a NaN or falsy cell yields no predecessors; a
string cell is split on commas, entries stripped, empties discarded; any
other truthy cell yields the single stripped `str(...)` rendering. -/
def parsePredCell : PredCell → List String
  | PredCell.na => []
  | PredCell.strc s =>
      if s = "" then []
      else ((pySplitComma s).map pyStrip).filter (fun p => p ≠ "")
  | PredCell.other truthy r => if truthy then [pyStrip r] else []

/-- The parsed predecessor references of a task row. -/
def predsOf (t : Task) : List String := parsePredCell t.predecessorTaskIDs

/-- Lines 14-16: `pert_duration = (bestCaseHours + 4*expectedHours + worstCaseHours) / 6`. -/
def pert_duration (t : Task) : ℚ :=
  (t.bestCaseHours + 4 * t.expectedHours + t.worstCaseHours) / 6

/-- `tasks_df.loc[tasks_df.taskID == x].iloc[0]`: the first row whose
`taskID` equals `x`; `none` models the `IndexError` path (line 40). -/
def lookupTask (tasks : List Task) (tid : String) : Option Task :=
  tasks.find? (fun r => r.taskID == tid)

/-- The validated predecessor data of a task: each parsed reference that
resolves, paired with the `pert_duration` of the first matching row
(line 38).  Unresolved references are dropped (the `except IndexError`
branch). -/
def predData (tasks : List Task) (t : Task) : List (String × ℚ) :=
  (predsOf t).filterMap (fun p =>
    (lookupTask tasks p).map (fun row => (p, pert_duration row)))

/-- The message printed at line 41 for an unresolved predecessor. -/
def warnMsg (pred tid : String) : String :=
  "Warning: Predecessor " ++ pred ++ " not found for task " ++ tid

/-- The sequence of warnings printed during constraint construction, in
loop order: one per unresolved parsed reference. -/
def warnings (tasks : List Task) : List String :=
  tasks.flatMap (fun t =>
    ((predsOf t).filter (fun p => (lookupTask tasks p).isNone)).map
      (fun p => warnMsg p t.taskID))

/-- The linear program handed to the external solver: the start-variable
keys (one per row, duplicates collapse to the same variable), the
precedence constraints `(target, pred, predDuration)` meaning
`start(target) ≥ start(pred) + predDuration` (line 39), and the completion
constraints `(id, duration)` meaning `total ≥ start(id) + duration`
(line 44). -/
structure LPProb where
  varIDs : List String
  edges : List (String × String × ℚ)
  ends : List (String × ℚ)
deriving DecidableEq

/-- Construction of the LP from the task rows (lines 8-44). -/
def buildLP (tasks : List Task) : LPProb :=
  { varIDs := tasks.map (fun t => t.taskID)
    edges := tasks.flatMap (fun t =>
      (predData tasks t).map (fun pd => (t.taskID, pd.1, pd.2)))
    ends := tasks.map (fun t => (t.taskID, pert_duration t)) }

/-- Feasibility of an assignment of start times `σ` and total duration `T`
for the LP: variable lower bounds and every posted constraint. -/
def LPProb.Feasible (lp : LPProb) (σ : String → ℚ) (T : ℚ) : Prop :=
  0 ≤ T ∧ (∀ v ∈ lp.varIDs, 0 ≤ σ v) ∧
    (∀ e ∈ lp.edges, σ e.2.1 + e.2.2 ≤ σ e.1) ∧
    (∀ c ∈ lp.ends, σ c.1 + c.2 ≤ T)

/-- The solver's contract when it reports status `Optimal` (status code 1):
the assignment is feasible and the objective `total_duration` is minimal. -/
def LPProb.IsOptimal (lp : LPProb) (σ : String → ℚ) (T : ℚ) : Prop :=
  lp.Feasible σ T ∧ ∀ σ' T', lp.Feasible σ' T' → T ≤ T'

/-- Outcome of `prob.solve()`: an optimal assignment, or a non-optimal
status whose `pulp.LpStatus` name is carried as a string. -/
inductive SolveOutcome where
  | optimal : (String → ℚ) → ℚ → SolveOutcome
  | notOptimal : String → SolveOutcome

/-- A solver is sound when every `optimal` outcome really is an optimal
feasible point of the LP it was given.  This is the only property of CBC
the source relies on. -/
def SoundSolver (solver : LPProb → SolveOutcome) : Prop :=
  ∀ lp σ T, solver lp = SolveOutcome.optimal σ T → lp.IsOptimal σ T

/-- `max`-fold with base `0`, the shape of every aggregate in this model. -/
def foldMax {α : Type} (f : α → ℚ) (l : List α) : ℚ :=
  l.foldl (fun m x => max m (f x)) 0

/-- The precedence constraints of the LP whose target is `id`, as
`(pred, predDuration)` pairs. -/
def lpPreds (lp : LPProb) (id : String) : List (String × ℚ) :=
  (lp.edges.filter (fun e => e.1 == id)).map (fun e => (e.2.1, e.2.2))

/-- Earliest-start value of one variable given already-computed starts:
`max(0, max over predecessor constraints of (start(pred) + dur))`
(spec §4.3 step 2). -/
def esVal (σ : String → ℚ) (pds : List (String × ℚ)) : ℚ :=
  foldMax (fun pd => σ pd.1 + pd.2) pds

/-- Forward propagation over the completion-constraint list in order,
updating one start per step. -/
def esRun (lp : LPProb) : List (String × ℚ) → (String → ℚ) → (String → ℚ)
  | [], σ => σ
  | c :: rest, σ =>
      esRun lp rest (Function.update σ c.1 (esVal σ (lpPreds lp c.1)))

/-- The earliest-start assignment of the LP (reference solution). -/
def esStart (lp : LPProb) : String → ℚ := esRun lp lp.ends (fun _ => 0)

/-- The earliest finish over all completion constraints: the minimal value
of the objective (spec §4.3 step 4). -/
def esMakespan (lp : LPProb) : ℚ :=
  foldMax (fun c => esStart lp c.1 + c.2) lp.ends

/-- The completion-constraint list is topologically ordered: every
precedence constraint of an entry points at an already-seen id. -/
def topoEndsB (lp : LPProb) : List String → List (String × ℚ) → Bool
  | _, [] => true
  | seen, c :: rest =>
      ((lpPreds lp c.1).all (fun pd => seen.contains pd.1)) &&
        topoEndsB lp (c.1 :: seen) rest

/-- The LP instances on which the reference solution is provably optimal:
distinct variable ids, a topologically ordered constraint list, variable
set matching the completion constraints, and every precedence target
carrying a completion constraint.  `buildLP` satisfies the last two by
construction; the first two hold for well-formed (unique-id, acyclic,
topologically listed) task sets. -/
def WellFormedLP (lp : LPProb) : Prop :=
  (lp.ends.map Prod.fst).Nodup ∧ topoEndsB lp [] lp.ends = true ∧
    lp.varIDs = lp.ends.map Prod.fst ∧
    ∀ e ∈ lp.edges, e.1 ∈ lp.ends.map Prod.fst

instance (lp : LPProb) : Decidable (WellFormedLP lp) := by
  unfold WellFormedLP; infer_instance

/-- The same LP with its completion-constraint list replaced by `ord`
(and the variable list matched to it): when `ord` is a permutation of
`lp.ends`, the constraint *set*, and hence the feasible region, is
unchanged — only the processing order of the reference forward
propagation differs.  A topological such `ord` exists exactly when the
precedence graph is acyclic, whatever order the input rows came in. -/
def reorderLP (lp : LPProb) (ord : List (String × ℚ)) : LPProb :=
  { varIDs := ord.map Prod.fst
    edges := lp.edges
    ends := ord }

/-- A concrete sound solver used to instantiate theorems: on well-formed
LPs it returns the earliest-start solution, otherwise a non-optimal
status. -/
def lpSolve (lp : LPProb) : SolveOutcome :=
  if WellFormedLP lp then SolveOutcome.optimal (esStart lp) (esMakespan lp)
  else SolveOutcome.notOptimal ("Infeasible")

/-- One entry of `results['task_details']` (lines 65-73). -/
structure TaskResult where
  taskID : String
  start_time : ℚ
  pert_duration : ℚ
  best_case : ℚ
  expected_case : ℚ
  worst_case : ℚ
  end_time : ℚ
deriving DecidableEq

/-- Building one detail record from the loop id and the first matching row
(lines 62-73): note `end_time = start_time + pert_duration` by
construction. -/
def mkDetail (σ : String → ℚ) (tid : String) (row : Task) : TaskResult :=
  { taskID := tid
    start_time := σ tid
    pert_duration := pert_duration row
    best_case := row.bestCaseHours
    expected_case := row.expectedHours
    worst_case := row.worstCaseHours
    end_time := σ tid + pert_duration row }

/-- The `results` dictionary of a successful run (lines 53-78).  The
`schedule` dict is modeled as the association list produced by the
extraction loop. -/
structure Results where
  status : String
  total_project_duration : ℚ
  schedule : List (String × ℚ)
  task_details : List TaskResult
deriving DecidableEq

/-- Result extraction (lines 52-78), given the solver's assignment. -/
def extractResults (tasks : List Task) (σ : String → ℚ) (T : ℚ) : Results :=
  { status := ("Optimal")
    total_project_duration := T
    schedule := tasks.map (fun t => (t.taskID, σ t.taskID))
    task_details := tasks.map (fun t =>
      mkDetail σ t.taskID ((lookupTask tasks t.taskID).getD t)) }

/-- `optimize_project_schedule` (lines 5-78): the printed warning log is
the first component; the second is either the extracted results (status 1)
or the `ValueError` message of line 50, which interpolates the generic
`pulp.LpStatus` name. -/
def optimize_project_schedule (solver : LPProb → SolveOutcome)
    (tasks : List Task) : List String × Except String Results :=
  (warnings tasks,
    match solver (buildLP tasks) with
    | SolveOutcome.optimal σ T => Except.ok (extractResults tasks σ T)
    | SolveOutcome.notOptimal s =>
        Except.error ("Could not find optimal solution. Status: " ++ s))

/-- One row of the analyzer's `schedule_df` after the `float_time` column
is added (line 91). -/
structure ARow where
  taskID : String
  start_time : ℚ
  pert_duration : ℚ
  best_case : ℚ
  expected_case : ℚ
  worst_case : ℚ
  end_time : ℚ
  float_time : ℚ
deriving DecidableEq

/-- The analyzer row of a detail `tr` relative to the column maximum `m`:
the detail's fields plus `float_time = m - end_time` (line 91). -/
def toARow (m : ℚ) (tr : TaskResult) : ARow :=
  { taskID := tr.taskID
    start_time := tr.start_time
    pert_duration := tr.pert_duration
    best_case := tr.best_case
    expected_case := tr.expected_case
    worst_case := tr.worst_case
    end_time := tr.end_time
    float_time := m - tr.end_time }

/-- Line 91: `float_time = end_time.max() - end_time`, computed against
the maximum `end_time` of the details (pandas column max, no base
element). -/
def floatRows (tds : List TaskResult) : List ARow :=
  match tds with
  | [] => []
  | h :: t =>
      let maxEnd := t.foldl (fun m tr => max m tr.end_time) h.end_time
      (h :: t).map (toARow maxEnd)

/-- The dictionary returned by `analyze_project_schedule` (lines 97-101). -/
structure AnalyzeResult where
  total_project_duration : ℚ
  schedule : List ARow
  optimization_status : String
deriving DecidableEq

/-- The documented contract of `schedule_df.sort_values('start_time')`
with the default `kind='quicksort'`: the output is a permutation of the
rows, ordered by ascending `start_time`.  pandas documents only
`mergesort`/`stable` as stable kinds, so tie order is NOT part of the
contract and the sort is modeled as an arbitrary function satisfying
this specification. -/
def SortSpec (sortFn : List ARow → List ARow) : Prop :=
  ∀ l, (sortFn l).Perm l ∧
    (sortFn l).Pairwise (fun a b => a.start_time ≤ b.start_time)

/-- `analyze_project_schedule` (lines 80-101): runs the optimizer, adds
`float_time`, sorts by `start_time` via the supplied sort, and repackages.
On an empty `task_details` list the real code raises a pandas `KeyError`
(an empty frame has no `end_time` column); that path is modeled as an
error. -/
def analyze_project_schedule (solver : LPProb → SolveOutcome)
    (sortFn : List ARow → List ARow) (tasks : List Task) :
    List String × Except String AnalyzeResult :=
  match optimize_project_schedule solver tasks with
  | (log, Except.error e) => (log, Except.error e)
  | (log, Except.ok r) =>
      match r.task_details with
      | [] => (log, Except.error ("KeyError: end_time"))
      | h :: t =>
          (log, Except.ok
            { total_project_duration := r.total_project_duration
              schedule := sortFn (floatRows (h :: t))
              optimization_status := r.status })

/-- Comparison used by the sort: ascending `start_time`. -/
def rowLe (a b : ARow) : Prop := a.start_time ≤ b.start_time

instance : DecidableRel rowLe := fun a b => by
  unfold rowLe; infer_instance

/-- A stable conforming sort (insertion sort by start time). -/
def goodSort (l : List ARow) : List ARow := l.insertionSort rowLe

/-- A conforming but tie-reversing sort: stable-sorts the reversed list,
so rows with equal `start_time` come out in reversed input order. -/
def badSort (l : List ARow) : List ARow := l.reverse.insertionSort rowLe

/-- The caller-visible DataFrame state: the task rows plus the
`pert_duration` column, absent before the solver has run. -/
structure TasksDF where
  rows : List Task
  pert_col : Option (List ℚ)
deriving DecidableEq

/-- `optimize_project_schedule` as the caller observes it through the
shared DataFrame: lines 7 and 14 assign columns of `tasks_df` in place
(`taskID = taskID.astype(str)`, a no-op here since ids are already
strings, and the new `pert_duration` column), so the function returns the
mutated frame alongside its result.  Modeled as explicit state passing. -/
def optimize_df (solver : LPProb → SolveOutcome) (df : TasksDF) :
    TasksDF × (List String × Except String Results) :=
  ({ rows := df.rows, pert_col := some (df.rows.map pert_duration) },
    optimize_project_schedule solver df.rows)

/-- `analyze_project_schedule` with the same DataFrame state threading:
it hands the caller's frame to the optimizer (line 85), which mutates it. -/
def analyze_df (solver : LPProb → SolveOutcome)
    (sortFn : List ARow → List ARow) (df : TasksDF) :
    TasksDF × (List String × Except String AnalyzeResult) :=
  ((optimize_df solver df).1, analyze_project_schedule solver sortFn df.rows)

/-- The fields of a task row that result extraction reads: its id and the
three hour estimates (the predecessor text is not part of any output). -/
def taskData (t : Task) : String × ℚ × ℚ × ℚ :=
  (t.taskID, t.bestCaseHours, t.expectedHours, t.worstCaseHours)

/-! Concrete instances used by witnesses and counterexamples. -/

/-- Task A of the spec §8 scenario: hours (1,2,3), no predecessors. -/
def specA : Task :=
  { taskID := ("A"), predecessorTaskIDs := PredCell.na,
    bestCaseHours := 1, expectedHours := 2, worstCaseHours := 3 }

/-- Task B of the spec §8 scenario: hours (2,4,6), predecessor A. -/
def specB : Task :=
  { taskID := ("B"), predecessorTaskIDs := PredCell.strc ("A"),
    bestCaseHours := 2, expectedHours := 4, worstCaseHours := 6 }

/-- Task C of the spec §8 scenario: hours (1,1,1), predecessor B. -/
def specC : Task :=
  { taskID := ("C"), predecessorTaskIDs := PredCell.strc ("B"),
    bestCaseHours := 1, expectedHours := 1, worstCaseHours := 1 }

/-- The three-task scenario of spec §8. -/
def specTasks : List Task := [specA, specB, specC]

/-- A predecessor-free task of duration 2. -/
def cex2A : Task :=
  { taskID := ("A"), predecessorTaskIDs := PredCell.na,
    bestCaseHours := 2, expectedHours := 2, worstCaseHours := 2 }

/-- A predecessor-free task of duration 4. -/
def cex2B : Task :=
  { taskID := ("B"), predecessorTaskIDs := PredCell.na,
    bestCaseHours := 4, expectedHours := 4, worstCaseHours := 4 }

/-- Two independent tasks of durations 2 and 4: the minimal-makespan LP
solution is not unique on this instance. -/
def cex2Tasks : List Task := [cex2A, cex2B]

/-- The earliest-start assignment on `cex2Tasks`. -/
def cexσ1 : String → ℚ := fun _ => 0

/-- An alternative optimal assignment on `cex2Tasks`: the predecessor-free
task A starts at 1 instead of 0. -/
def cexσ2 : String → ℚ := fun v => if v = "A" then 1 else 0

/-- Task A of the cyclic instance: depends on B, duration 6. -/
def cycA : Task :=
  { taskID := ("A"), predecessorTaskIDs := PredCell.strc ("B"),
    bestCaseHours := 6, expectedHours := 6, worstCaseHours := 6 }

/-- Task B of the cyclic instance: depends on A, duration 6. -/
def cycB : Task :=
  { taskID := ("B"), predecessorTaskIDs := PredCell.strc ("A"),
    bestCaseHours := 6, expectedHours := 6, worstCaseHours := 6 }

/-- A two-cycle: A depends on B and B depends on A. -/
def cycTasks : List Task := [cycA, cycB]

/-- A task listing the nonexistent predecessor Z. -/
def dangA : Task :=
  { taskID := ("A"), predecessorTaskIDs := PredCell.strc ("Z"),
    bestCaseHours := 2, expectedHours := 2, worstCaseHours := 2 }

/-- The same task with no predecessor reference. -/
def freeA : Task :=
  { taskID := ("A"), predecessorTaskIDs := PredCell.na,
    bestCaseHours := 2, expectedHours := 2, worstCaseHours := 2 }

/-- A single task with a dangling predecessor reference. -/
def danglingTasks : List Task := [dangA]

/-- The same task set without the dangling reference. -/
def danglingFreeTasks : List Task := [freeA]

/-- Equal-duration predecessor-free task X. -/
def tieX : Task :=
  { taskID := ("X"), predecessorTaskIDs := PredCell.na,
    bestCaseHours := 2, expectedHours := 2, worstCaseHours := 2 }

/-- Equal-duration predecessor-free task Y. -/
def tieY : Task :=
  { taskID := ("Y"), predecessorTaskIDs := PredCell.na,
    bestCaseHours := 2, expectedHours := 2, worstCaseHours := 2 }

/-- Two independent equal-duration tasks: both start at 0, so their order
in the analyzer output is a pure tie. -/
def tieTasks : List Task := [tieX, tieY]

/-- The LP built from `specTasks`, written out. -/
def lpSpec : LPProb :=
  { varIDs := [("A"), ("B"), ("C")]
    edges := [(("B"), (("A"), (2:ℚ))), (("C"), (("B"), (4:ℚ)))]
    ends := [(("A"), (2:ℚ)), (("B"), (4:ℚ)), (("C"), (1:ℚ))] }

/-- The spec §8 tasks listed in reverse (anti-topological) order: C, which
depends on B, comes first and the predecessor-free A last.  The set is
acyclic but the input list is not topologically sorted. -/
def revSpecTasks : List Task := [specC, specB, specA]

/-- The LP built from `revSpecTasks`: same constraint set as `lpSpec`, but
with the completion constraints in the misordered input order. -/
def lpSpecRev : LPProb :=
  { varIDs := [("C"), ("B"), ("A")]
    edges := [(("C"), (("B"), (4:ℚ))), (("B"), (("A"), (2:ℚ)))]
    ends := [(("C"), (1:ℚ)), (("B"), (4:ℚ)), (("A"), (2:ℚ))] }

/-- A topological ordering of the completion constraints of `lpSpecRev`. -/
def lpSpecOrd : List (String × ℚ) :=
  [(("A"), (2:ℚ)), (("B"), (4:ℚ)), (("C"), (1:ℚ))]

/-- `lpSpecRev` reordered along `lpSpecOrd`. -/
def lpSpecOrdered : LPProb :=
  { varIDs := [("A"), ("B"), ("C")]
    edges := [(("C"), (("B"), (4:ℚ))), (("B"), (("A"), (2:ℚ)))]
    ends := [(("A"), (2:ℚ)), (("B"), (4:ℚ)), (("C"), (1:ℚ))] }

/-- The results of the solved spec scenario: starts 0, 2, 6; ends 2, 6, 7;
makespan 7 — exactly the values listed in spec §8. -/
def specResults : Results :=
  { status := ("Optimal")
    total_project_duration := 7
    schedule := [(("A"), (0:ℚ)), (("B"), (2:ℚ)), (("C"), (6:ℚ))]
    task_details :=
      [{ taskID := ("A"), start_time := 0, pert_duration := 2, best_case := 1,
         expected_case := 2, worst_case := 3, end_time := 2 },
       { taskID := ("B"), start_time := 2, pert_duration := 4, best_case := 2,
         expected_case := 4, worst_case := 6, end_time := 6 },
       { taskID := ("C"), start_time := 6, pert_duration := 1, best_case := 1,
         expected_case := 1, worst_case := 1, end_time := 7 }] }

/-- The analyzed spec scenario: floats 5, 1, 0. -/
def specAnalysis : AnalyzeResult :=
  { total_project_duration := 7
    schedule :=
      [{ taskID := ("A"), start_time := 0, pert_duration := 2, best_case := 1,
         expected_case := 2, worst_case := 3, end_time := 2, float_time := 5 },
       { taskID := ("B"), start_time := 2, pert_duration := 4, best_case := 2,
         expected_case := 4, worst_case := 6, end_time := 6, float_time := 1 },
       { taskID := ("C"), start_time := 6, pert_duration := 1, best_case := 1,
         expected_case := 1, worst_case := 1, end_time := 7, float_time := 0 }]
    optimization_status := ("Optimal") }

/-- The LP built from `cex2Tasks`. -/
def lpCex2 : LPProb :=
  { varIDs := [("A"), ("B")]
    edges := []
    ends := [(("A"), (2:ℚ)), (("B"), (4:ℚ))] }

/-- The LP built from `cycTasks`: mutually recursive precedence. -/
def lpCyc : LPProb :=
  { varIDs := [("A"), ("B")]
    edges := [(("A"), (("B"), (6:ℚ))), (("B"), (("A"), (6:ℚ)))]
    ends := [(("A"), (6:ℚ)), (("B"), (6:ℚ))] }

/-- The LP built from both `danglingTasks` and `danglingFreeTasks`: the
dangling edge is dropped, so the two coincide. -/
def lpDang : LPProb :=
  { varIDs := [("A")]
    edges := []
    ends := [(("A"), (2:ℚ))] }

/-- The result both dangling instances produce. -/
def dangResults : Results :=
  { status := ("Optimal")
    total_project_duration := 2
    schedule := [(("A"), (0:ℚ))]
    task_details :=
      [{ taskID := ("A"), start_time := 0, pert_duration := 2, best_case := 2,
         expected_case := 2, worst_case := 2, end_time := 2 }] }

/-- The LP built from `tieTasks`. -/
def lpTie : LPProb :=
  { varIDs := [("X"), ("Y")]
    edges := []
    ends := [(("X"), (2:ℚ)), (("Y"), (2:ℚ))] }

/-- The solved tie instance, rows in input order X, Y. -/
def tieResults : Results :=
  { status := ("Optimal")
    total_project_duration := 2
    schedule := [(("X"), (0:ℚ)), (("Y"), (0:ℚ))]
    task_details :=
      [{ taskID := ("X"), start_time := 0, pert_duration := 2, best_case := 2,
         expected_case := 2, worst_case := 2, end_time := 2 },
       { taskID := ("Y"), start_time := 0, pert_duration := 2, best_case := 2,
         expected_case := 2, worst_case := 2, end_time := 2 }] }

/-- The analyzed row of task X (float 0, start 0). -/
def tieRowX : ARow :=
  { taskID := ("X"), start_time := 0, pert_duration := 2, best_case := 2,
    expected_case := 2, worst_case := 2, end_time := 2, float_time := 0 }

/-- The analyzed row of task Y (float 0, start 0). -/
def tieRowY : ARow :=
  { taskID := ("Y"), start_time := 0, pert_duration := 2, best_case := 2,
    expected_case := 2, worst_case := 2, end_time := 2, float_time := 0 }

/-- The result returned on an empty task set: status `Optimal`, zero
total duration, empty schedule and details. -/
def emptyResults : Results :=
  { status := ("Optimal")
    total_project_duration := 0
    schedule := []
    task_details := [] }

/-- A task whose hour estimates violate best ≤ expected ≤ worst. -/
def outOfOrderTask : Task :=
  { taskID := ("D"), predecessorTaskIDs := PredCell.na,
    bestCaseHours := 6, expectedHours := 0, worstCaseHours := 0 }

/-! Generic lemmas about the `max`-fold. -/

lemma le_foldl_max {α : Type} (f : α → ℚ) (l : List α) (a : ℚ) :
    a ≤ l.foldl (fun m x => max m (f x)) a := by
  induction l generalizing a with
  | nil => exact le_refl a
  | cons x xs ih =>
      exact le_trans (le_max_left a (f x)) (ih (max a (f x)))

lemma foldl_max_of_mem {α : Type} (f : α → ℚ) (l : List α) (a : ℚ) {x : α}
    (hx : x ∈ l) : f x ≤ l.foldl (fun m x => max m (f x)) a := by
  induction l generalizing a with
  | nil => cases hx
  | cons y ys ih =>
      rcases List.mem_cons.1 hx with h | h
      · subst h
        exact le_trans (le_max_right a (f x)) (le_foldl_max f ys (max a (f x)))
      · exact ih (max a (f y)) h

lemma foldl_max_le {α : Type} (f : α → ℚ) (l : List α) (a c : ℚ)
    (ha : a ≤ c) (h : ∀ x ∈ l, f x ≤ c) :
    l.foldl (fun m x => max m (f x)) a ≤ c := by
  induction l generalizing a with
  | nil => exact ha
  | cons y ys ih =>
      exact ih (max a (f y)) (max_le ha (h y (List.mem_cons_self y ys)))
        (fun x hx => h x (List.mem_cons_of_mem y hx))

lemma foldMax_nonneg {α : Type} (f : α → ℚ) (l : List α) : 0 ≤ foldMax f l :=
  le_foldl_max f l 0

lemma foldMax_of_mem {α : Type} (f : α → ℚ) {l : List α} {x : α}
    (hx : x ∈ l) : f x ≤ foldMax f l :=
  foldl_max_of_mem f l 0 hx

lemma foldMax_le {α : Type} (f : α → ℚ) (l : List α) (c : ℚ) (hc : 0 ≤ c)
    (h : ∀ x ∈ l, f x ≤ c) : foldMax f l ≤ c :=
  foldl_max_le f l 0 c hc h

/-! Lemmas about lookups and the built LP. -/

lemma lookupTask_taskID {tasks : List Task} {tid : String} {row : Task}
    (h : lookupTask tasks tid = some row) : row.taskID = tid := by
  have h' := List.find?_some h
  simpa using h'

lemma lookupTask_mem {tasks : List Task} {tid : String} {row : Task}
    (h : lookupTask tasks tid = some row) : row ∈ tasks :=
  List.mem_of_find?_eq_some h

lemma lookupTask_self {tasks : List Task} {t : Task}
    (hnd : (tasks.map (fun t => t.taskID)).Nodup) (ht : t ∈ tasks) :
    lookupTask tasks t.taskID = some t := by
  induction tasks with
  | nil => cases ht
  | cons h rest ih =>
      rcases List.mem_cons.1 ht with he | he
      · subst he
        unfold lookupTask
        exact List.find?_cons_of_pos rest (by simp)
      · have hnd' := hnd
        simp only [List.map_cons, List.nodup_cons] at hnd'
        have hne : h.taskID ≠ t.taskID := by
          intro heq
          exact hnd'.1 (heq ▸ List.mem_map.2 ⟨t, he, rfl⟩)
        unfold lookupTask
        rw [List.find?_cons_of_neg rest (by simpa using hne)]
        exact ih hnd'.2 he

lemma predData_mem {tasks : List Task} {t : Task} {p : String} {row : Task}
    (hp : p ∈ predsOf t) (hrow : lookupTask tasks p = some row) :
    (p, pert_duration row) ∈ predData tasks t :=
  List.mem_filterMap.2 ⟨p, hp, by rw [hrow]; rfl⟩

lemma buildLP_edge_of {tasks : List Task} {t : Task} {p : String} {row : Task}
    (ht : t ∈ tasks) (hp : p ∈ predsOf t)
    (hrow : lookupTask tasks p = some row) :
    (t.taskID, p, pert_duration row) ∈ (buildLP tasks).edges := by
  have hpd := predData_mem hp hrow
  exact List.mem_flatMap.2 ⟨t, ht, List.mem_map.2 ⟨(p, pert_duration row), hpd, rfl⟩⟩

lemma buildLP_end_of {tasks : List Task} {t : Task} (ht : t ∈ tasks) :
    (t.taskID, pert_duration t) ∈ (buildLP tasks).ends :=
  List.mem_map.2 ⟨t, ht, rfl⟩

lemma buildLP_varIDs (tasks : List Task) :
    (buildLP tasks).varIDs = (buildLP tasks).ends.map Prod.fst := by
  simp [buildLP]

lemma buildLP_edge_target (tasks : List Task) :
    ∀ e ∈ (buildLP tasks).edges, e.1 ∈ (buildLP tasks).ends.map Prod.fst := by
  intro e he
  rcases List.mem_flatMap.1 he with ⟨t, ht, hmem⟩
  rcases List.mem_map.1 hmem with ⟨pd, _, rfl⟩
  simpa [buildLP] using List.mem_map.2 ⟨t, ht, rfl⟩

lemma lpPreds_mem_edges {lp : LPProb} {tid : String} {pd : String × ℚ}
    (h : pd ∈ lpPreds lp tid) : (tid, pd.1, pd.2) ∈ lp.edges := by
  rcases List.mem_map.1 h with ⟨e, he, heq⟩
  rcases List.mem_filter.1 he with ⟨hmem, hbeq⟩
  have h1 : e.1 = tid := by simpa using hbeq
  rcases e with ⟨a, b, c⟩
  rcases pd with ⟨x, y⟩
  simp only at h1
  injection heq with hb hc
  simp only at hb hc ⊢
  rw [← h1, ← hb, ← hc]
  exact hmem

lemma mem_edges_lpPreds {lp : LPProb} {e : String × String × ℚ}
    (h : e ∈ lp.edges) : (e.2.1, e.2.2) ∈ lpPreds lp e.1 :=
  List.mem_map.2 ⟨e, List.mem_filter.2 ⟨h, by simp⟩, rfl⟩

/-! The forward-propagation solution: nonnegativity, feasibility,
minimality. -/

lemma esVal_nonneg (σ : String → ℚ) (pds : List (String × ℚ)) :
    0 ≤ esVal σ pds :=
  foldMax_nonneg _ pds

lemma esRun_nonneg (lp : LPProb) (l : List (String × ℚ)) (σ : String → ℚ)
    (h : ∀ v, 0 ≤ σ v) : ∀ v, 0 ≤ esRun lp l σ v := by
  induction l generalizing σ with
  | nil => exact h
  | cons c rest ih =>
      intro v
      refine ih _ ?_ v
      intro v'
      rw [Function.update_apply]
      split
      · exact esVal_nonneg σ (lpPreds lp c.1)
      · exact h v'

/-- Invariant induction: after processing the whole list, every precedence
constraint whose target was processed (or already belonged to `seen` with
its constraints satisfied) holds of the computed starts. -/
lemma es_run_edges (lp : LPProb) :
    ∀ (l : List (String × ℚ)) (seen : List String) (σ : String → ℚ),
      topoEndsB lp seen l = true →
      (l.map Prod.fst).Nodup →
      (∀ s ∈ seen, s ∉ l.map Prod.fst) →
      (∀ v ∈ seen, ∀ pd ∈ lpPreds lp v, pd.1 ∈ seen) →
      (∀ v ∈ seen, ∀ pd ∈ lpPreds lp v, σ pd.1 + pd.2 ≤ σ v) →
      ∀ v, (v ∈ seen ∨ v ∈ l.map Prod.fst) →
        ∀ pd ∈ lpPreds lp v, esRun lp l σ pd.1 + pd.2 ≤ esRun lp l σ v := by
  intro l
  induction l with
  | nil =>
      intro seen σ _ _ _ _ hcons v hv pd hpd
      rcases hv with hv | hv
      · exact hcons v hv pd hpd
      · cases hv
  | cons c rest ih =>
      intro seen σ htopo hnd hdisj hclosed hcons v hv pd hpd
      simp only [topoEndsB, Bool.and_eq_true, List.all_eq_true] at htopo
      obtain ⟨htopo1, htopo2⟩ := htopo
      have hpredseen : ∀ pd ∈ lpPreds lp c.1, pd.1 ∈ seen := by
        intro pd hpd
        have := htopo1 pd hpd
        simpa using this
      simp only [List.map_cons, List.nodup_cons] at hnd
      have hc1 : c.1 ∉ seen := by
        intro hmem
        exact hdisj c.1 hmem (by simp)
      have hv' : v ∈ (c.1 :: seen) ∨ v ∈ rest.map Prod.fst := by
        rcases hv with hv | hv
        · exact Or.inl (List.mem_cons_of_mem c.1 hv)
        · simp only [List.map_cons, List.mem_cons] at hv
          rcases hv with hv | hv
          · exact Or.inl (by simp [hv])
          · exact Or.inr hv
      show esRun lp rest (Function.update σ c.1 (esVal σ (lpPreds lp c.1))) pd.1 + pd.2 ≤
        esRun lp rest (Function.update σ c.1 (esVal σ (lpPreds lp c.1))) v
      refine ih (c.1 :: seen) _ htopo2 hnd.2 ?_ ?_ ?_ v hv' pd hpd
      · intro s hs
        rcases List.mem_cons.1 hs with hs | hs
        · subst hs
          exact hnd.1
        · intro hmem
          exact hdisj s hs (List.mem_cons_of_mem c.1 hmem)
      · intro v' hv' pd' hpd'
        rcases List.mem_cons.1 hv' with hv' | hv'
        · subst hv'
          exact List.mem_cons_of_mem c.1 (hpredseen pd' hpd')
        · exact List.mem_cons_of_mem c.1 (hclosed v' hv' pd' hpd')
      · intro v' hv' pd' hpd'
        rcases List.mem_cons.1 hv' with hv' | hv'
        · subst hv'
          have hps : pd'.1 ∈ seen := hpredseen pd' hpd'
          have hne : pd'.1 ≠ c.1 := fun h => hc1 (h ▸ hps)
          rw [Function.update_apply, if_neg hne, Function.update_apply, if_pos rfl]
          exact foldMax_of_mem _ hpd'
        · have hps : pd'.1 ∈ seen := hclosed v' hv' pd' hpd'
          have hne1 : pd'.1 ≠ c.1 := fun h => hc1 (h ▸ hps)
          have hne2 : v' ≠ c.1 := fun h => hc1 (h ▸ hv')
          rw [Function.update_apply, if_neg hne1, Function.update_apply, if_neg hne2]
          exact hcons v' hv' pd' hpd'

/-- Invariant induction: any feasible assignment dominates the computed
starts. -/
lemma es_run_le (lp : LPProb) (σf : String → ℚ) (T : ℚ)
    (hf : lp.Feasible σf T) :
    ∀ (l : List (String × ℚ)) (seen : List String) (σ : String → ℚ),
      topoEndsB lp seen l = true →
      (∀ c ∈ l, c.1 ∈ lp.varIDs) →
      (∀ v ∈ seen, σ v ≤ σf v) →
      ∀ v, (v ∈ seen ∨ v ∈ l.map Prod.fst) → esRun lp l σ v ≤ σf v := by
  intro l
  induction l with
  | nil =>
      intro seen σ _ _ hle v hv
      rcases hv with hv | hv
      · exact hle v hv
      · cases hv
  | cons c rest ih =>
      intro seen σ htopo hvar hle v hv
      simp only [topoEndsB, Bool.and_eq_true, List.all_eq_true] at htopo
      obtain ⟨htopo1, htopo2⟩ := htopo
      have hcv : esVal σ (lpPreds lp c.1) ≤ σf c.1 := by
        refine foldMax_le _ _ _ ?_ ?_
        · exact hf.2.1 c.1 (hvar c (by simp))
        · intro pd hpd
          have hps : pd.1 ∈ seen := by
            have := htopo1 pd hpd
            simpa using this
          have hedge : σf pd.1 + pd.2 ≤ σf c.1 :=
            hf.2.2.1 (c.1, pd.1, pd.2) (lpPreds_mem_edges hpd)
          exact le_trans (add_le_add_right (hle pd.1 hps) pd.2) hedge
      have hv' : v ∈ (c.1 :: seen) ∨ v ∈ rest.map Prod.fst := by
        rcases hv with hv | hv
        · exact Or.inl (List.mem_cons_of_mem c.1 hv)
        · simp only [List.map_cons, List.mem_cons] at hv
          rcases hv with hv | hv
          · exact Or.inl (by simp [hv])
          · exact Or.inr hv
      show esRun lp rest (Function.update σ c.1 (esVal σ (lpPreds lp c.1))) v ≤ σf v
      refine ih (c.1 :: seen) _ htopo2
        (fun c' hc' => hvar c' (List.mem_cons_of_mem c hc')) ?_ v hv'
      intro v' hv'
      rw [Function.update_apply]
      split
      · rename_i heq
        exact heq ▸ hcv
      · rcases List.mem_cons.1 hv' with hv' | hv'
        · rename_i hne
          exact absurd hv' hne
        · exact hle v' hv'

lemma es_feasible (lp : LPProb) (hwf : WellFormedLP lp) :
    lp.Feasible (esStart lp) (esMakespan lp) := by
  obtain ⟨hnd, htopo, hvar, hedge⟩ := hwf
  refine ⟨foldMax_nonneg _ _, ?_, ?_, ?_⟩
  · intro v _
    exact esRun_nonneg lp lp.ends (fun _ => 0) (fun _ => le_refl 0) v
  · intro e he
    have h1 : e.1 ∈ lp.ends.map Prod.fst := hedge e he
    have h2 : (e.2.1, e.2.2) ∈ lpPreds lp e.1 := mem_edges_lpPreds he
    exact es_run_edges lp lp.ends [] (fun _ => 0) htopo hnd
      (by intro s hs; cases hs) (by intro v hv; cases hv)
      (by intro v hv; cases hv) e.1 (Or.inr h1) (e.2.1, e.2.2) h2
  · intro c hc
    exact foldMax_of_mem _ hc

lemma es_le_of_feasible (lp : LPProb) (hwf : WellFormedLP lp)
    (σ : String → ℚ) (T : ℚ) (hf : lp.Feasible σ T) :
    ∀ v ∈ lp.ends.map Prod.fst, esStart lp v ≤ σ v := by
  intro v hv
  obtain ⟨hnd, htopo, hvar, hedge⟩ := hwf
  exact es_run_le lp σ T hf lp.ends [] (fun _ => 0) htopo
    (fun c hc => by rw [hvar]; exact List.mem_map.2 ⟨c, hc, rfl⟩)
    (by intro v' hv'; cases hv') v (Or.inr hv)

lemma es_minimal (lp : LPProb) (hwf : WellFormedLP lp)
    (σ : String → ℚ) (T : ℚ) (hf : lp.Feasible σ T) :
    esMakespan lp ≤ T := by
  refine foldMax_le _ _ _ hf.1 ?_
  intro c hc
  have h1 : esStart lp c.1 ≤ σ c.1 :=
    es_le_of_feasible lp hwf σ T hf c.1 (List.mem_map.2 ⟨c, hc, rfl⟩)
  have h2 : σ c.1 + c.2 ≤ T := hf.2.2.2 c hc
  exact le_trans (add_le_add_right h1 c.2) h2

lemma es_isOptimal (lp : LPProb) (hwf : WellFormedLP lp) :
    lp.IsOptimal (esStart lp) (esMakespan lp) :=
  ⟨es_feasible lp hwf, fun σ' T' hf => es_minimal lp hwf σ' T' hf⟩

lemma optimal_total_eq (lp : LPProb) (hwf : WellFormedLP lp)
    (σ : String → ℚ) (T : ℚ) (hopt : lp.IsOptimal σ T) :
    T = esMakespan lp :=
  le_antisymm (hopt.2 _ _ (es_feasible lp hwf)) (es_minimal lp hwf σ T hopt.1)

/-- Permuting the completion-constraint list (with the variable list kept
in step) does not change the feasible region: every conjunct of
`Feasible` quantifies over list membership only. -/
lemma feasible_reorder (lp : LPProb) (ord : List (String × ℚ))
    (hvar : lp.varIDs = lp.ends.map Prod.fst) (hperm : ord.Perm lp.ends)
    (σ : String → ℚ) (T : ℚ) :
    lp.Feasible σ T ↔ (reorderLP lp ord).Feasible σ T := by
  have hmemv : ∀ v : String, v ∈ ord.map Prod.fst ↔ v ∈ lp.varIDs := by
    intro v
    rw [hvar]
    exact (hperm.map Prod.fst).mem_iff
  have hmemc : ∀ c : String × ℚ, c ∈ ord ↔ c ∈ lp.ends :=
    fun c => hperm.mem_iff
  constructor
  · rintro ⟨h1, h2, h3, h4⟩
    exact ⟨h1, fun v hv => h2 v ((hmemv v).1 hv), h3,
      fun c hc => h4 c ((hmemc c).1 hc)⟩
  · rintro ⟨h1, h2, h3, h4⟩
    exact ⟨h1, fun v hv => h2 v ((hmemv v).2 hv), h3,
      fun c hc => h4 c ((hmemc c).2 hc)⟩

/-- Optimality is likewise invariant under reordering the constraints. -/
lemma isOptimal_reorder (lp : LPProb) (ord : List (String × ℚ))
    (hvar : lp.varIDs = lp.ends.map Prod.fst) (hperm : ord.Perm lp.ends)
    (σ : String → ℚ) (T : ℚ) :
    lp.IsOptimal σ T ↔ (reorderLP lp ord).IsOptimal σ T := by
  constructor
  · rintro ⟨hf, hmin⟩
    exact ⟨(feasible_reorder lp ord hvar hperm σ T).1 hf,
      fun σ' T' hf' => hmin σ' T'
        ((feasible_reorder lp ord hvar hperm σ' T').2 hf')⟩
  · rintro ⟨hf, hmin⟩
    exact ⟨(feasible_reorder lp ord hvar hperm σ T).2 hf,
      fun σ' T' hf' => hmin σ' T'
        ((feasible_reorder lp ord hvar hperm σ' T').1 hf')⟩

lemma lpSolve_sound : SoundSolver lpSolve := by
  intro lp σ T h
  unfold lpSolve at h
  split at h
  · rename_i hwf
    injection h with h1 h2
    rw [← h1, ← h2]
    exact es_isOptimal lp hwf
  · cases h

/-! Evaluation of the spec §8 scenario. -/

lemma predsOf_specA : predsOf specA = [] := by decide

lemma predsOf_specB : predsOf specB = ["A"] := by decide

lemma predsOf_specC : predsOf specC = ["B"] := by decide

lemma lookup_spec_A : lookupTask [specA, specB, specC] ("A") = some specA := by decide

lemma lookup_spec_B : lookupTask [specA, specB, specC] ("B") = some specB := by decide

lemma lookup_spec_C : lookupTask [specA, specB, specC] ("C") = some specC := by decide

lemma pert_specA : pert_duration specA = 2 := by norm_num [pert_duration, specA]

lemma pert_specB : pert_duration specB = 4 := by norm_num [pert_duration, specB]

lemma pert_specC : pert_duration specC = 1 := by norm_num [pert_duration, specC]

lemma specA_id : specA.taskID = "A" := rfl

lemma specB_id : specB.taskID = "B" := rfl

lemma specC_id : specC.taskID = "C" := rfl

lemma buildLP_spec : buildLP specTasks = lpSpec := by
  simp only [buildLP, lpSpec, specTasks, List.map_cons, List.map_nil,
    List.flatMap_cons, List.flatMap_nil, predData, predsOf_specA, predsOf_specB,
    predsOf_specC, List.filterMap_cons, List.filterMap_nil, lookup_spec_A,
    lookup_spec_B, lookup_spec_C, Option.map_some', pert_specA, pert_specB,
    pert_specC, specA_id, specB_id, specC_id, List.append_nil, List.nil_append,
    List.cons_append, List.singleton_append]

lemma wf_lpSpec : WellFormedLP lpSpec := by decide

lemma lpSpec_ends : lpSpec.ends =
    [(("A"), (2:ℚ)), (("B"), (4:ℚ)), (("C"), (1:ℚ))] := rfl

lemma esStart_lpSpec_A : esStart lpSpec ("A") = 0 := by
  simp [esStart, esRun, esVal, foldMax, lpPreds, lpSpec, Function.update_apply,
    List.filter, List.foldl]

lemma esStart_lpSpec_B : esStart lpSpec ("B") = 2 := by
  simp [esStart, esRun, esVal, foldMax, lpPreds, lpSpec, Function.update_apply,
    List.filter, List.foldl]

lemma esStart_lpSpec_C : esStart lpSpec ("C") = 6 := by
  simp [esStart, esRun, esVal, foldMax, lpPreds, lpSpec, Function.update_apply,
    List.filter, List.foldl]
  norm_num

lemma esMakespan_lpSpec : esMakespan lpSpec = 7 := by
  simp [esMakespan, foldMax, List.foldl, lpSpec_ends, esStart_lpSpec_A,
    esStart_lpSpec_B, esStart_lpSpec_C]
  norm_num

lemma lpSolve_lpSpec : lpSolve lpSpec =
    SolveOutcome.optimal (esStart lpSpec) (esMakespan lpSpec) := by
  rw [lpSolve, if_pos wf_lpSpec]

lemma warnings_spec : warnings specTasks = [] := by decide

lemma detail_specA (σ : String → ℚ) : mkDetail σ ("A") specA =
    { taskID := ("A"), start_time := σ ("A"), pert_duration := 2, best_case := 1,
      expected_case := 2, worst_case := 3, end_time := σ ("A") + 2 } := by
  simp only [mkDetail, pert_specA]
  rfl

lemma detail_specB (σ : String → ℚ) : mkDetail σ ("B") specB =
    { taskID := ("B"), start_time := σ ("B"), pert_duration := 4, best_case := 2,
      expected_case := 4, worst_case := 6, end_time := σ ("B") + 4 } := by
  simp only [mkDetail, pert_specB]
  rfl

lemma detail_specC (σ : String → ℚ) : mkDetail σ ("C") specC =
    { taskID := ("C"), start_time := σ ("C"), pert_duration := 1, best_case := 1,
      expected_case := 1, worst_case := 1, end_time := σ ("C") + 1 } := by
  simp only [mkDetail, pert_specC]
  rfl

lemma optimize_spec : optimize_project_schedule lpSolve specTasks =
    ([], Except.ok specResults) := by
  rw [optimize_project_schedule, warnings_spec, buildLP_spec, lpSolve_lpSpec]
  simp [extractResults, specTasks, specA_id, specB_id, specC_id, lookup_spec_A,
    lookup_spec_B, lookup_spec_C, Option.getD, detail_specA, detail_specB,
    detail_specC, esStart_lpSpec_A, esStart_lpSpec_B, esStart_lpSpec_C,
    esMakespan_lpSpec, specResults]
  norm_num

/-! Evaluation of the misordered (reverse-listed) spec scenario. -/

lemma lookup_rev_A : lookupTask [specC, specB, specA] ("A") = some specA := by
  decide

lemma lookup_rev_B : lookupTask [specC, specB, specA] ("B") = some specB := by
  decide

lemma buildLP_revSpec : buildLP revSpecTasks = lpSpecRev := by
  simp only [buildLP, lpSpecRev, revSpecTasks, List.map_cons, List.map_nil,
    List.flatMap_cons, List.flatMap_nil, predData, predsOf_specA, predsOf_specB,
    predsOf_specC, List.filterMap_cons, List.filterMap_nil, lookup_rev_A,
    lookup_rev_B, Option.map_some', pert_specA, pert_specB, pert_specC, specA_id, specB_id,
    specC_id, List.append_nil, List.nil_append, List.cons_append,
    List.singleton_append]

lemma reorder_lpSpecRev : reorderLP lpSpecRev lpSpecOrd = lpSpecOrdered := rfl

lemma perm_lpSpecOrd : lpSpecOrd.Perm lpSpecRev.ends := by decide

lemma hvar_lpSpecRev : lpSpecRev.varIDs = lpSpecRev.ends.map Prod.fst := by
  decide

lemma wf_lpSpecOrdered : WellFormedLP lpSpecOrdered := by decide

lemma lpSpecOrdered_ends : lpSpecOrdered.ends =
    [(("A"), (2:ℚ)), (("B"), (4:ℚ)), (("C"), (1:ℚ))] := rfl

lemma esStart_lpSpecOrdered_A : esStart lpSpecOrdered ("A") = 0 := by
  simp [esStart, esRun, esVal, foldMax, lpPreds, lpSpecOrdered,
    Function.update_apply, List.filter, List.foldl]

lemma esStart_lpSpecOrdered_B : esStart lpSpecOrdered ("B") = 2 := by
  simp [esStart, esRun, esVal, foldMax, lpPreds, lpSpecOrdered,
    Function.update_apply, List.filter, List.foldl]

lemma esStart_lpSpecOrdered_C : esStart lpSpecOrdered ("C") = 6 := by
  simp [esStart, esRun, esVal, foldMax, lpPreds, lpSpecOrdered,
    Function.update_apply, List.filter, List.foldl]
  norm_num

lemma esMakespan_lpSpecOrdered : esMakespan lpSpecOrdered = 7 := by
  simp [esMakespan, foldMax, List.foldl, lpSpecOrdered_ends,
    esStart_lpSpecOrdered_A, esStart_lpSpecOrdered_B, esStart_lpSpecOrdered_C]
  norm_num

/-! The sort contract and the two conforming sorts. -/

instance : IsTotal ARow rowLe :=
  ⟨fun a b => le_total a.start_time b.start_time⟩

instance : IsTrans ARow rowLe :=
  ⟨fun _ _ _ h1 h2 => le_trans h1 h2⟩

lemma goodSort_sortSpec : SortSpec goodSort := by
  intro l
  constructor
  · exact List.perm_insertionSort rowLe l
  · exact List.sorted_insertionSort rowLe l

lemma badSort_sortSpec : SortSpec badSort := by
  intro l
  constructor
  · exact (List.perm_insertionSort rowLe l.reverse).trans (List.reverse_perm l)
  · exact List.sorted_insertionSort rowLe l.reverse

/-! Analyzer evaluation on the spec §8 scenario. -/

lemma floatRows_spec : floatRows specResults.task_details =
    specAnalysis.schedule := by
  simp [floatRows, toARow, specResults, specAnalysis, List.foldl]
  norm_num

lemma goodSort_specRows : goodSort specAnalysis.schedule =
    specAnalysis.schedule := by
  apply List.Sorted.insertionSort_eq
  simp [specAnalysis, List.Sorted, List.pairwise_cons, rowLe]
  norm_num

lemma analyze_spec : analyze_project_schedule lpSolve goodSort specTasks =
    ([], Except.ok specAnalysis) := by
  rw [analyze_project_schedule, optimize_spec]
  show ([], Except.ok
      { total_project_duration := specResults.total_project_duration
        schedule := goodSort (floatRows specResults.task_details)
        optimization_status := specResults.status }) =
    ([], Except.ok specAnalysis)
  rw [floatRows_spec, goodSort_specRows]
  rfl

/-! Evaluation of the two-independent-task instance `cex2Tasks`. -/

lemma pert_cex2A : pert_duration cex2A = 2 := by norm_num [pert_duration, cex2A]

lemma pert_cex2B : pert_duration cex2B = 4 := by norm_num [pert_duration, cex2B]

lemma buildLP_cex2 : buildLP cex2Tasks = lpCex2 := by
  simp only [buildLP, lpCex2, cex2Tasks, List.map_cons, List.map_nil,
    List.flatMap_cons, List.flatMap_nil, predData, List.filterMap_nil,
    pert_cex2A, pert_cex2B, List.append_nil, List.nil_append]
  rfl

lemma cex2_feasible1 : lpCex2.Feasible cexσ1 4 := by
  refine ⟨by norm_num, ?_, ?_, ?_⟩ <;>
    simp [lpCex2, cexσ1]
  norm_num

lemma cex2_feasible2 : lpCex2.Feasible cexσ2 4 := by
  refine ⟨by norm_num, ?_, ?_, ?_⟩ <;>
    simp [lpCex2, cexσ2]
  norm_num

lemma cex2_minimal : ∀ (σ : String → ℚ) (T : ℚ), lpCex2.Feasible σ T → 4 ≤ T := by
  intro σ T h
  have h1 : σ ("B") + 4 ≤ T := h.2.2.2 (("B"), (4:ℚ)) (by simp [lpCex2])
  have h2 : 0 ≤ σ ("B") := h.2.1 ("B") (by simp [lpCex2])
  linarith

lemma cex2_opt1 : lpCex2.IsOptimal cexσ1 4 :=
  ⟨cex2_feasible1, fun σ' T' h => cex2_minimal σ' T' h⟩

lemma cex2_opt2 : lpCex2.IsOptimal cexσ2 4 :=
  ⟨cex2_feasible2, fun σ' T' h => cex2_minimal σ' T' h⟩

/-! Evaluation of the cyclic instance `cycTasks`. -/

lemma predsOf_cycA : predsOf cycA = ["B"] := by decide

lemma predsOf_cycB : predsOf cycB = ["A"] := by decide

lemma lookup_cyc_A : lookupTask [cycA, cycB] ("A") = some cycA := by decide

lemma lookup_cyc_B : lookupTask [cycA, cycB] ("B") = some cycB := by decide

lemma pert_cycA : pert_duration cycA = 6 := by norm_num [pert_duration, cycA]

lemma pert_cycB : pert_duration cycB = 6 := by norm_num [pert_duration, cycB]

lemma cycA_id : cycA.taskID = "A" := rfl

lemma cycB_id : cycB.taskID = "B" := rfl

lemma buildLP_cyc : buildLP cycTasks = lpCyc := by
  simp only [buildLP, lpCyc, cycTasks, List.map_cons, List.map_nil,
    List.flatMap_cons, List.flatMap_nil, predData, predsOf_cycA, predsOf_cycB,
    List.filterMap_cons, List.filterMap_nil, lookup_cyc_A, lookup_cyc_B,
    Option.map_some', pert_cycA, pert_cycB, cycA_id, cycB_id, List.append_nil,
    List.nil_append, List.cons_append, List.singleton_append]

lemma notwf_lpCyc : ¬ WellFormedLP lpCyc := by decide

lemma lpSolve_lpCyc : lpSolve lpCyc = SolveOutcome.notOptimal ("Infeasible") := by
  rw [lpSolve, if_neg notwf_lpCyc]

lemma warnings_cyc : warnings cycTasks = [] := by decide

lemma optimize_cyc : optimize_project_schedule lpSolve cycTasks =
    ([], Except.error ("Could not find optimal solution. Status: Infeasible")) := by
  rw [optimize_project_schedule, warnings_cyc, buildLP_cyc, lpSolve_lpCyc]
  rfl

lemma cyc_infeasible : ¬ ∃ (σ : String → ℚ) (T : ℚ), lpCyc.Feasible σ T := by
  rintro ⟨σ, T, h⟩
  have h1 : σ ("B") + 6 ≤ σ ("A") :=
    h.2.2.1 (("A"), (("B"), (6:ℚ))) (by simp [lpCyc])
  have h2 : σ ("A") + 6 ≤ σ ("B") :=
    h.2.2.1 (("B"), (("A"), (6:ℚ))) (by simp [lpCyc])
  linarith

/-! Evaluation of the dangling-predecessor instance. -/

lemma predsOf_dangA : predsOf dangA = ["Z"] := by decide

lemma lookup_dang_Z : lookupTask [dangA] ("Z") = none := by decide

lemma lookup_dang_A : lookupTask [dangA] ("A") = some dangA := by decide

lemma lookup_free_A : lookupTask [freeA] ("A") = some freeA := by decide

lemma pert_dangA : pert_duration dangA = 2 := by norm_num [pert_duration, dangA]

lemma pert_freeA : pert_duration freeA = 2 := by norm_num [pert_duration, freeA]

lemma dangA_id : dangA.taskID = "A" := rfl

lemma freeA_id : freeA.taskID = "A" := rfl

lemma buildLP_dang : buildLP danglingTasks = lpDang := by
  simp only [buildLP, lpDang, danglingTasks, List.map_cons, List.map_nil,
    List.flatMap_cons, List.flatMap_nil, predData, predsOf_dangA,
    List.filterMap_cons, List.filterMap_nil, lookup_dang_Z, Option.map_none',
    pert_dangA, dangA_id, List.append_nil, List.nil_append]

lemma buildLP_free : buildLP danglingFreeTasks = lpDang := by
  simp only [buildLP, lpDang, danglingFreeTasks, List.map_cons, List.map_nil,
    List.flatMap_cons, List.flatMap_nil, predData, List.filterMap_nil,
    pert_freeA, freeA_id, List.append_nil, List.nil_append]
  rfl

lemma wf_lpDang : WellFormedLP lpDang := by decide

lemma esStart_lpDang_A : esStart lpDang ("A") = 0 := by
  simp [esStart, esRun, esVal, foldMax, lpPreds, lpDang, Function.update_apply,
    List.filter, List.foldl]

lemma lpDang_ends : lpDang.ends = [(("A"), (2:ℚ))] := rfl

lemma esMakespan_lpDang : esMakespan lpDang = 2 := by
  simp [esMakespan, foldMax, List.foldl, lpDang_ends, esStart_lpDang_A]

lemma lpSolve_lpDang : lpSolve lpDang =
    SolveOutcome.optimal (esStart lpDang) (esMakespan lpDang) := by
  rw [lpSolve, if_pos wf_lpDang]

lemma warnings_dang : warnings danglingTasks =
    [("Warning: Predecessor Z not found for task A")] := by decide

lemma warnings_free : warnings danglingFreeTasks = [] := by decide

lemma detail_dangA (σ : String → ℚ) : mkDetail σ ("A") dangA =
    { taskID := ("A"), start_time := σ ("A"), pert_duration := 2, best_case := 2,
      expected_case := 2, worst_case := 2, end_time := σ ("A") + 2 } := by
  simp only [mkDetail, pert_dangA]
  rfl

lemma detail_freeA (σ : String → ℚ) : mkDetail σ ("A") freeA =
    { taskID := ("A"), start_time := σ ("A"), pert_duration := 2, best_case := 2,
      expected_case := 2, worst_case := 2, end_time := σ ("A") + 2 } := by
  simp only [mkDetail, pert_freeA]
  rfl

lemma optimize_dang : optimize_project_schedule lpSolve danglingTasks =
    ([("Warning: Predecessor Z not found for task A")], Except.ok dangResults) := by
  rw [optimize_project_schedule, warnings_dang, buildLP_dang, lpSolve_lpDang]
  simp [extractResults, danglingTasks, dangA_id, lookup_dang_A, Option.getD,
    detail_dangA, esStart_lpDang_A, esMakespan_lpDang, dangResults]

lemma optimize_free : optimize_project_schedule lpSolve danglingFreeTasks =
    ([], Except.ok dangResults) := by
  rw [optimize_project_schedule, warnings_free, buildLP_free, lpSolve_lpDang]
  simp [extractResults, danglingFreeTasks, freeA_id, lookup_free_A, Option.getD,
    detail_freeA, esStart_lpDang_A, esMakespan_lpDang, dangResults]

/-! Evaluation of the equal-start tie instance. -/

lemma pert_tieX : pert_duration tieX = 2 := by norm_num [pert_duration, tieX]

lemma pert_tieY : pert_duration tieY = 2 := by norm_num [pert_duration, tieY]

lemma tieX_id : tieX.taskID = "X" := rfl

lemma tieY_id : tieY.taskID = "Y" := rfl

lemma lookup_tie_X : lookupTask [tieX, tieY] ("X") = some tieX := by decide

lemma lookup_tie_Y : lookupTask [tieX, tieY] ("Y") = some tieY := by decide

lemma buildLP_tie : buildLP tieTasks = lpTie := by
  simp only [buildLP, lpTie, tieTasks, List.map_cons, List.map_nil,
    List.flatMap_cons, List.flatMap_nil, predData, List.filterMap_nil,
    pert_tieX, pert_tieY, tieX_id, tieY_id, List.append_nil, List.nil_append]
  rfl

lemma wf_lpTie : WellFormedLP lpTie := by decide

lemma esStart_lpTie_X : esStart lpTie ("X") = 0 := by
  simp [esStart, esRun, esVal, foldMax, lpPreds, lpTie, Function.update_apply,
    List.filter, List.foldl]

lemma esStart_lpTie_Y : esStart lpTie ("Y") = 0 := by
  simp [esStart, esRun, esVal, foldMax, lpPreds, lpTie, Function.update_apply,
    List.filter, List.foldl]

lemma lpTie_ends : lpTie.ends = [(("X"), (2:ℚ)), (("Y"), (2:ℚ))] := rfl

lemma esMakespan_lpTie : esMakespan lpTie = 2 := by
  simp [esMakespan, foldMax, List.foldl, lpTie_ends, esStart_lpTie_X,
    esStart_lpTie_Y]

lemma lpSolve_lpTie : lpSolve lpTie =
    SolveOutcome.optimal (esStart lpTie) (esMakespan lpTie) := by
  rw [lpSolve, if_pos wf_lpTie]

lemma warnings_tie : warnings tieTasks = [] := by decide

lemma detail_tieX (σ : String → ℚ) : mkDetail σ ("X") tieX =
    { taskID := ("X"), start_time := σ ("X"), pert_duration := 2, best_case := 2,
      expected_case := 2, worst_case := 2, end_time := σ ("X") + 2 } := by
  simp only [mkDetail, pert_tieX]
  rfl

lemma detail_tieY (σ : String → ℚ) : mkDetail σ ("Y") tieY =
    { taskID := ("Y"), start_time := σ ("Y"), pert_duration := 2, best_case := 2,
      expected_case := 2, worst_case := 2, end_time := σ ("Y") + 2 } := by
  simp only [mkDetail, pert_tieY]
  rfl

lemma optimize_tie : optimize_project_schedule lpSolve tieTasks =
    ([], Except.ok tieResults) := by
  rw [optimize_project_schedule, warnings_tie, buildLP_tie, lpSolve_lpTie]
  simp [extractResults, tieTasks, tieX_id, tieY_id, lookup_tie_X, lookup_tie_Y,
    Option.getD, detail_tieX, detail_tieY, esStart_lpTie_X, esStart_lpTie_Y,
    esMakespan_lpTie, tieResults]

lemma floatRows_tie : floatRows tieResults.task_details = [tieRowX, tieRowY] := by
  simp [floatRows, toARow, tieResults, tieRowX, tieRowY, List.foldl]

lemma badSort_tieRows : badSort [tieRowX, tieRowY] = [tieRowY, tieRowX] := by
  show List.insertionSort rowLe [tieRowX, tieRowY].reverse = [tieRowY, tieRowX]
  have h : List.Sorted rowLe [tieRowY, tieRowX] := by
    simp [List.Sorted, List.pairwise_cons, rowLe, tieRowX, tieRowY]
  rw [show ([tieRowX, tieRowY]).reverse = [tieRowY, tieRowX] from rfl]
  exact h.insertionSort_eq

lemma analyze_tie_bad : analyze_project_schedule lpSolve badSort tieTasks =
    ([], Except.ok
      { total_project_duration := 2
        schedule := [tieRowY, tieRowX]
        optimization_status := ("Optimal") }) := by
  rw [analyze_project_schedule, optimize_tie]
  show ([], Except.ok
      ({ total_project_duration := tieResults.total_project_duration
         schedule := badSort (floatRows tieResults.task_details)
         optimization_status := tieResults.status } : AnalyzeResult)) =
    ([], Except.ok
      ({ total_project_duration := 2
         schedule := [tieRowY, tieRowX]
         optimization_status := ("Optimal") } : AnalyzeResult))
  rw [floatRows_tie, badSort_tieRows]
  rfl

/-! Helpers for the makespan characterization. -/

lemma foldl_max_attained {α : Type} (f : α → ℚ) :
    ∀ (l : List α) (a : ℚ),
      l.foldl (fun m x => max m (f x)) a = a ∨
        ∃ x ∈ l, l.foldl (fun m x => max m (f x)) a = f x := by
  intro l
  induction l with
  | nil => intro a; exact Or.inl rfl
  | cons y ys ih =>
      intro a
      rcases ih (max a (f y)) with h | ⟨x, hx, hfx⟩
      · rcases max_choice a (f y) with hm | hm
        · left
          show ys.foldl (fun m x => max m (f x)) (max a (f y)) = a
          rw [h, hm]
        · right
          refine ⟨y, List.mem_cons_self y ys, ?_⟩
          show ys.foldl (fun m x => max m (f x)) (max a (f y)) = f y
          rw [h, hm]
      · exact Or.inr ⟨x, List.mem_cons_of_mem y hx, hfx⟩

lemma foldMax_attained {α : Type} (f : α → ℚ) (l : List α) (hne : l ≠ [])
    (hpos : ∀ x ∈ l, 0 ≤ f x) : ∃ x ∈ l, foldMax f l = f x := by
  rcases foldl_max_attained f l 0 with h | h
  · cases l with
    | nil => exact absurd rfl hne
    | cons y ys =>
        refine ⟨y, List.mem_cons_self y ys, ?_⟩
        have h1 : f y ≤ foldMax f (y :: ys) :=
          foldMax_of_mem f (List.mem_cons_self y ys)
        have h2 : 0 ≤ f y := hpos y (List.mem_cons_self y ys)
        have h0 : foldMax f (y :: ys) = 0 := h
        rw [h0] at h1 ⊢
        exact (le_antisymm h1 h2).symm
  · exact h

lemma pert_nonneg {t : Task} (hb : 0 ≤ t.bestCaseHours)
    (he : 0 ≤ t.expectedHours) (hw : 0 ≤ t.worstCaseHours) :
    0 ≤ pert_duration t := by
  unfold pert_duration
  have h6 : (0:ℚ) < 6 := by norm_num
  apply div_nonneg _ (le_of_lt h6)
  linarith

/-- Shrinking the objective to the largest completion keeps feasibility. -/
lemma feasible_foldMax (lp : LPProb) (σ : String → ℚ) (T : ℚ)
    (hf : lp.Feasible σ T) :
    lp.Feasible σ (foldMax (fun c => σ c.1 + c.2) lp.ends) :=
  ⟨foldMax_nonneg _ _, hf.2.1, hf.2.2.1, fun _ hc => foldMax_of_mem _ hc⟩

/-- At any optimum the objective equals the largest completion time. -/
lemma optimal_total_foldMax (lp : LPProb) (σ : String → ℚ) (T : ℚ)
    (hopt : lp.IsOptimal σ T) :
    T = foldMax (fun c => σ c.1 + c.2) lp.ends :=
  le_antisymm (hopt.2 σ _ (feasible_foldMax lp σ T hopt.1))
    (foldMax_le _ _ T hopt.1.1 (fun c hc => hopt.1.2.2.2 c hc))

/-! Helpers for the warning/result separation (frame reasoning over the
fields extraction reads). -/

lemma mkDetail_congr (σ : String → ℚ) (tid : String) {r1 r2 : Task}
    (h : taskData r1 = taskData r2) : mkDetail σ tid r1 = mkDetail σ tid r2 := by
  have h1 : r1.taskID = r2.taskID := congrArg Prod.fst h
  have h2 : r1.bestCaseHours = r2.bestCaseHours :=
    congrArg (fun q => q.2.1) h
  have h3 : r1.expectedHours = r2.expectedHours :=
    congrArg (fun q => q.2.2.1) h
  have h4 : r1.worstCaseHours = r2.worstCaseHours :=
    congrArg (fun q => q.2.2.2) h
  simp [mkDetail, pert_duration, h2, h3, h4]

lemma lookup_congr :
    ∀ (tasks tasks' : List Task),
      tasks.map taskData = tasks'.map taskData →
      ∀ tid, Option.map taskData (lookupTask tasks tid) =
        Option.map taskData (lookupTask tasks' tid) := by
  intro tasks
  induction tasks with
  | nil =>
      intro tasks' h tid
      have h' : tasks' = [] := by
        cases tasks' with
        | nil => rfl
        | cons t ts => simp at h
      rw [h']
  | cons t ts ih =>
      intro tasks' h tid
      cases tasks' with
      | nil => simp at h
      | cons t' ts' =>
          simp only [List.map_cons, List.cons.injEq] at h
          have hid : t.taskID = t'.taskID := congrArg Prod.fst h.1
          unfold lookupTask
          by_cases hb : (t.taskID == tid) = true
          · rw [List.find?_cons_of_pos ts hb,
              List.find?_cons_of_pos ts' (by rw [← hid]; exact hb)]
            simp [h.1]
          · rw [List.find?_cons_of_neg ts hb,
              List.find?_cons_of_neg ts' (by rw [← hid]; exact hb)]
            exact ih ts' h.2 tid

lemma details_congr (σ : String → ℚ) (tasks tasks' : List Task)
    (h : tasks.map taskData = tasks'.map taskData) :
    ∀ (l l' : List Task), l.map taskData = l'.map taskData →
      l.map (fun t => mkDetail σ t.taskID ((lookupTask tasks t.taskID).getD t)) =
        l'.map (fun t => mkDetail σ t.taskID ((lookupTask tasks' t.taskID).getD t)) := by
  intro l
  induction l with
  | nil =>
      intro l' hl
      have h' : l' = [] := by
        cases l' with
        | nil => rfl
        | cons x xs => simp at hl
      rw [h']
      rfl
  | cons x xs ih =>
      intro l' hl
      cases l' with
      | nil => simp at hl
      | cons x' xs' =>
          simp only [List.map_cons, List.cons.injEq] at hl
          have hid : x.taskID = x'.taskID := congrArg Prod.fst hl.1
          have hlook := lookup_congr tasks tasks' h x.taskID
          simp only [List.map_cons, List.cons.injEq]
          constructor
          · rw [← hid]
            cases hc : lookupTask tasks x.taskID with
            | none =>
                rw [hc] at hlook
                cases hc' : lookupTask tasks' x.taskID with
                | none =>
                    rw [hc'] at hlook
                    simp only [Option.getD]
                    exact mkDetail_congr σ x.taskID hl.1
                | some r' =>
                    rw [hc'] at hlook
                    simp at hlook
            | some r =>
                rw [hc] at hlook
                cases hc' : lookupTask tasks' x.taskID with
                | none =>
                    rw [hc'] at hlook
                    simp at hlook
                | some r' =>
                    rw [hc'] at hlook
                    simp only [Option.map_some', Option.some.injEq] at hlook
                    simp only [Option.getD]
                    exact mkDetail_congr σ x.taskID hlook
          · exact ih xs' hl.2

/-- Result extraction reads only the id/hour data of the rows: two task
lists with equal `taskData` images extract identically. -/
lemma extract_congr (σ : String → ℚ) (T : ℚ) (tasks tasks' : List Task)
    (h : tasks.map taskData = tasks'.map taskData) :
    extractResults tasks σ T = extractResults tasks' σ T := by
  have hids : tasks.map (fun t => t.taskID) = tasks'.map (fun t => t.taskID) := by
    have h1 := congrArg (List.map Prod.fst) h
    simpa [List.map_map, Function.comp] using h1
  unfold extractResults
  simp only [Results.mk.injEq]
  refine ⟨trivial, trivial, ?_, ?_⟩
  · have e1 : tasks.map (fun t => (t.taskID, σ t.taskID)) =
        (tasks.map (fun t => t.taskID)).map (fun v => (v, σ v)) := by
      rw [List.map_map]; rfl
    have e2 : tasks'.map (fun t => (t.taskID, σ t.taskID)) =
        (tasks'.map (fun t => t.taskID)).map (fun v => (v, σ v)) := by
      rw [List.map_map]; rfl
    rw [e1, e2, hids]
  · exact details_congr σ tasks tasks' h tasks tasks' h

/-! Shared helpers about extracted details at an optimum. -/

lemma detail_end_le (tasks : List Task) (σ : String → ℚ) (T : ℚ)
    (hnd : (tasks.map (fun t => t.taskID)).Nodup)
    (hopt : (buildLP tasks).IsOptimal σ T) :
    ∀ tr ∈ (extractResults tasks σ T).task_details, tr.end_time ≤ T := by
  intro tr htr
  rcases List.mem_map.1 htr with ⟨t, ht, rfl⟩
  have hlook : lookupTask tasks t.taskID = some t := lookupTask_self hnd ht
  rw [hlook]
  show σ t.taskID + pert_duration t ≤ T
  exact hopt.1.2.2.2 (t.taskID, pert_duration t) (buildLP_end_of ht)

lemma detail_end_attained (tasks : List Task) (σ : String → ℚ) (T : ℚ)
    (hnd : (tasks.map (fun t => t.taskID)).Nodup)
    (hpert : ∀ t ∈ tasks, 0 ≤ pert_duration t)
    (hne : tasks ≠ [])
    (hopt : (buildLP tasks).IsOptimal σ T) :
    ∃ tr ∈ (extractResults tasks σ T).task_details, tr.end_time = T := by
  have hTM := optimal_total_foldMax _ σ T hopt
  have hposf : ∀ c ∈ (buildLP tasks).ends, 0 ≤ σ c.1 + c.2 := by
    intro c hc
    rcases List.mem_map.1 hc with ⟨t, ht, rfl⟩
    have h1 : 0 ≤ σ t.taskID :=
      hopt.1.2.1 t.taskID (List.mem_map.2 ⟨t, ht, rfl⟩)
    exact add_nonneg h1 (hpert t ht)
  have hnee : (buildLP tasks).ends ≠ [] := by
    cases tasks with
    | nil => exact absurd rfl hne
    | cons a l => simp [buildLP]
  rcases foldMax_attained _ _ hnee hposf with ⟨c, hc, hattain⟩
  rcases List.mem_map.1 hc with ⟨t, ht, rfl⟩
  refine ⟨mkDetail σ t.taskID ((lookupTask tasks t.taskID).getD t),
    List.mem_map.2 ⟨t, ht, rfl⟩, ?_⟩
  have hlook : lookupTask tasks t.taskID = some t := lookupTask_self hnd ht
  rw [hlook]
  show σ t.taskID + pert_duration t = T
  exact (hTM.trans hattain).symm

/-! The ten claims. -/

/-- C1: for every validated predecessor edge `p → t` (a reference of `t`
resolving to task row `p`), any solved (optimal) schedule satisfies
`startTime(t) ≥ endTime(p)` where `endTime(p) = startTime(p) + pertDuration(p)`. -/
theorem c1_precedence (tasks : List Task) (σ : String → ℚ) (T : ℚ)
    (hopt : (buildLP tasks).IsOptimal σ T)
    (t : Task) (ht : t ∈ tasks) (p : String) (hp : p ∈ predsOf t)
    (row : Task) (hrow : lookupTask tasks p = some row) :
    σ row.taskID + pert_duration row ≤ σ t.taskID := by
  have hedge := buildLP_edge_of ht hp hrow
  have h := hopt.1.2.2.1 (t.taskID, p, pert_duration row) hedge
  rw [lookupTask_taskID hrow]
  exact h

/-- Witness for C1: the edge A → B of the spec §8 scenario at the concrete
optimal solution; start(B) is at least start(A) plus A's duration. -/
theorem c1_precedence_witness :
    esStart lpSpec (specA.taskID) + pert_duration specA ≤
      esStart lpSpec (specB.taskID) := by
  have hopt : (buildLP specTasks).IsOptimal (esStart lpSpec) (esMakespan lpSpec) := by
    rw [buildLP_spec]
    exact es_isOptimal lpSpec wf_lpSpec
  exact c1_precedence specTasks (esStart lpSpec) (esMakespan lpSpec) hopt specB
    (by simp [specTasks]) ("A") (by rw [predsOf_specB]; simp) specA lookup_spec_A

/-- C2 counterexample: on two independent tasks (durations 2 and 4) the LP
has two distinct optimal assignments with the same minimal total 4; in the
second one the predecessor-free task A starts at 1, not 0.  The
minimal-makespan assignment is therefore not unique and the LP does not
force earliest (or zero) starts. -/
theorem c2_counterexample :
    (buildLP cex2Tasks).IsOptimal cexσ1 4 ∧
      (buildLP cex2Tasks).IsOptimal cexσ2 4 ∧
      cexσ1 ("A") = 0 ∧ cexσ2 ("A") = 1 ∧
      predsOf cex2A = [] ∧ cex2A ∈ cex2Tasks := by
  refine ⟨?_, ?_, rfl, by simp [cexσ2], by decide, by simp [cex2Tasks]⟩
  · rw [buildLP_cex2]
    exact cex2_opt1
  · rw [buildLP_cex2]
    exact cex2_opt2

/-- C2 (amended): for every acyclic task set with resolved references —
acyclicity witnessed by any topological ordering `ord` of the built LP's
completion constraints (the input list itself may come in any order) —
every optimal outcome has total duration equal to the forward-propagation
makespan computed along `ord`, all starts nonnegative and bounded below by
the earliest starts, and the earliest-start assignment is itself optimal
for the built LP.  Per-task starts, however, are not uniquely determined
and a predecessor-free task need not start at 0 (see the counterexample). -/
theorem c2_amended (tasks : List Task) (σ : String → ℚ) (T : ℚ)
    (ord : List (String × ℚ))
    (hperm : ord.Perm (buildLP tasks).ends)
    (hwf : WellFormedLP (reorderLP (buildLP tasks) ord))
    (hopt : (buildLP tasks).IsOptimal σ T) :
    T = esMakespan (reorderLP (buildLP tasks) ord) ∧
      (buildLP tasks).IsOptimal (esStart (reorderLP (buildLP tasks) ord))
        (esMakespan (reorderLP (buildLP tasks) ord)) ∧
      ∀ t ∈ tasks, 0 ≤ σ t.taskID ∧
        esStart (reorderLP (buildLP tasks) ord) t.taskID ≤ σ t.taskID := by
  have hvar := buildLP_varIDs tasks
  have hopt' : (reorderLP (buildLP tasks) ord).IsOptimal σ T :=
    (isOptimal_reorder (buildLP tasks) ord hvar hperm σ T).1 hopt
  refine ⟨optimal_total_eq _ hwf σ T hopt', ?_, ?_⟩
  · exact (isOptimal_reorder (buildLP tasks) ord hvar hperm _ _).2
      (es_isOptimal _ hwf)
  · intro t ht
    constructor
    · exact hopt.1.2.1 t.taskID (List.mem_map.2 ⟨t, ht, rfl⟩)
    · apply es_le_of_feasible _ hwf σ T hopt'.1
      have h1 : t.taskID ∈ (buildLP tasks).ends.map Prod.fst := by
        rw [← buildLP_varIDs]
        exact List.mem_map.2 ⟨t, ht, rfl⟩
      exact ((hperm.map Prod.fst).mem_iff).2 h1

/-- Witness for C2 (amended) at the spec §8 tasks listed in reverse
(anti-topological) input order C, B, A: along the topological ordering
A, B, C the optimal total is the forward-propagation makespan 7, and the
earliest-start assignment is optimal for the LP built from the misordered
list. -/
theorem c2_amended_witness :
    esMakespan (reorderLP (buildLP revSpecTasks) lpSpecOrd) = 7 ∧
      (buildLP revSpecTasks).IsOptimal
        (esStart (reorderLP (buildLP revSpecTasks) lpSpecOrd))
        (esMakespan (reorderLP (buildLP revSpecTasks) lpSpecOrd)) ∧
      ∀ t ∈ revSpecTasks, 0 ≤ esStart lpSpecOrdered t.taskID ∧
        esStart (reorderLP (buildLP revSpecTasks) lpSpecOrd) t.taskID ≤
          esStart lpSpecOrdered t.taskID := by
  have hro : reorderLP (buildLP revSpecTasks) lpSpecOrd = lpSpecOrdered := by
    rw [buildLP_revSpec]
    exact reorder_lpSpecRev
  have hperm : lpSpecOrd.Perm (buildLP revSpecTasks).ends := by
    rw [buildLP_revSpec]
    exact perm_lpSpecOrd
  have hwf : WellFormedLP (reorderLP (buildLP revSpecTasks) lpSpecOrd) := by
    rw [hro]
    exact wf_lpSpecOrdered
  have hopt : (buildLP revSpecTasks).IsOptimal (esStart lpSpecOrdered)
      (esMakespan lpSpecOrdered) := by
    rw [buildLP_revSpec]
    exact (isOptimal_reorder lpSpecRev lpSpecOrd hvar_lpSpecRev perm_lpSpecOrd
      (esStart lpSpecOrdered) (esMakespan lpSpecOrdered)).2
      (reorder_lpSpecRev ▸ es_isOptimal lpSpecOrdered wf_lpSpecOrdered)
  have h := c2_amended revSpecTasks (esStart lpSpecOrdered)
    (esMakespan lpSpecOrdered) lpSpecOrd hperm hwf hopt
  exact ⟨h.1.symm.trans esMakespan_lpSpecOrdered, h.2.1, h.2.2⟩

/-- C3: the expected duration is exactly
`(bestHours + 4·expectedHours + worstHours) / 6` for every task, with no
ordering validation and no failure mode (the function is total); on
(1,2,3) it is 2, and on the out-of-order input (6,0,0) it is 1 — outside
the [best, worst] interval, confirming that inconsistent inputs pass
through. -/
theorem c3_pert_formula :
    (∀ t : Task, pert_duration t =
      (t.bestCaseHours + 4 * t.expectedHours + t.worstCaseHours) / 6) ∧
      pert_duration specA = 2 ∧ pert_duration outOfOrderTask = 1 := by
  refine ⟨fun t => rfl, pert_specA, by norm_num [pert_duration, outOfOrderTask]⟩

/-- C4: in any successful (optimal) result over distinct ids and
nonnegative hour estimates, every detail has `endTime = startTime +
pertDuration` exactly, no `endTime` exceeds the reported total duration,
and (for a nonempty task set) some task attains it — so the reported
makespan is the maximum end time. -/
theorem c4_end_times (tasks : List Task) (σ : String → ℚ) (T : ℚ)
    (hnd : (tasks.map (fun t => t.taskID)).Nodup)
    (hh : ∀ t ∈ tasks, 0 ≤ t.bestCaseHours ∧ 0 ≤ t.expectedHours ∧
      0 ≤ t.worstCaseHours)
    (hopt : (buildLP tasks).IsOptimal σ T) :
    (∀ tr ∈ (extractResults tasks σ T).task_details,
        tr.end_time = tr.start_time + tr.pert_duration ∧
          tr.end_time ≤ (extractResults tasks σ T).total_project_duration) ∧
      (tasks ≠ [] → ∃ tr ∈ (extractResults tasks σ T).task_details,
        tr.end_time = (extractResults tasks σ T).total_project_duration) := by
  constructor
  · intro tr htr
    refine ⟨?_, detail_end_le tasks σ T hnd hopt tr htr⟩
    rcases List.mem_map.1 htr with ⟨t, ht, rfl⟩
    rfl
  · intro hne
    exact detail_end_attained tasks σ T hnd
      (fun t ht => pert_nonneg (hh t ht).1 (hh t ht).2.1 (hh t ht).2.2) hne hopt

/-- Witness for C4 at the spec §8 scenario. -/
theorem c4_end_times_witness :
    (∀ tr ∈ (extractResults specTasks (esStart lpSpec) (esMakespan lpSpec)).task_details,
        tr.end_time = tr.start_time + tr.pert_duration ∧
          tr.end_time ≤ (extractResults specTasks (esStart lpSpec)
            (esMakespan lpSpec)).total_project_duration) ∧
      (specTasks ≠ [] → ∃ tr ∈ (extractResults specTasks (esStart lpSpec)
          (esMakespan lpSpec)).task_details,
        tr.end_time = (extractResults specTasks (esStart lpSpec)
          (esMakespan lpSpec)).total_project_duration) := by
  apply c4_end_times specTasks (esStart lpSpec) (esMakespan lpSpec)
  · decide
  · intro t ht
    fin_cases ht <;> norm_num [specA, specB, specC]
  · rw [buildLP_spec]
    exact es_isOptimal lpSpec wf_lpSpec

/-- C5 counterexample: on the two-cycle A ↔ B the LP is infeasible, and the
function raises the generic `ValueError` message interpolating the solver
status — there is no `CycleDetected` error kind naming the cycle's tasks
anywhere in the code, only this generic status string. -/
theorem c5_counterexample :
    (¬ ∃ (σ : String → ℚ) (T : ℚ), (buildLP cycTasks).Feasible σ T) ∧
      optimize_project_schedule lpSolve cycTasks =
        ([], Except.error ("Could not find optimal solution. Status: Infeasible")) := by
  constructor
  · rw [buildLP_cyc]
    exact cyc_infeasible
  · exact optimize_cyc

/-- C5 (amended): when the built LP is infeasible (as on any cycle of
positive total duration), any sound solver cannot report optimal, and the
function raises the generic `ValueError` "Could not find optimal solution.
Status: ..." carrying only the solver's status name; no partial schedule
is returned (the error carries no result). -/
theorem c5_amended (solver : LPProb → SolveOutcome) (tasks : List Task)
    (hs : SoundSolver solver)
    (hinf : ¬ ∃ (σ : String → ℚ) (T : ℚ), (buildLP tasks).Feasible σ T) :
    ∃ s, optimize_project_schedule solver tasks =
      (warnings tasks,
        Except.error ("Could not find optimal solution. Status: " ++ s)) := by
  cases hsol : solver (buildLP tasks) with
  | optimal σ T => exact absurd ⟨σ, T, (hs _ σ T hsol).1⟩ hinf
  | notOptimal s =>
      refine ⟨s, ?_⟩
      rw [optimize_project_schedule, hsol]

/-- Witness for C5 (amended) on the concrete two-cycle. -/
theorem c5_amended_witness :
    ∃ s, optimize_project_schedule lpSolve cycTasks =
      (warnings cycTasks,
        Except.error ("Could not find optimal solution. Status: " ++ s)) :=
  c5_amended lpSolve cycTasks lpSolve_sound
    (by rw [buildLP_cyc]; exact cyc_infeasible)

/-- C6 counterexample: on zero tasks the LP is trivially feasible with
optimal total 0, and the function returns a successful result with zero
makespan and empty schedule — it does not fail, and no `EmptyTaskSet`
error kind exists in the code. -/
theorem c6_counterexample :
    optimize_project_schedule lpSolve [] = ([], Except.ok emptyResults) := by
  rw [optimize_project_schedule]
  have h1 : lpSolve (buildLP []) = SolveOutcome.optimal (esStart (buildLP []))
      (esMakespan (buildLP [])) := by
    rw [lpSolve, if_pos (by decide : WellFormedLP (buildLP []))]
  rw [h1]
  rfl

/-- C6 (amended): given zero tasks, any sound solver that reports optimal
on the (feasible, degenerate) empty LP makes the function return a
successful `Optimal` result with total duration 0 and empty schedule and
details, rather than raising any error. -/
theorem c6_amended (solver : LPProb → SolveOutcome) (hs : SoundSolver solver)
    (σ : String → ℚ) (T : ℚ)
    (hsol : solver (buildLP []) = SolveOutcome.optimal σ T) :
    optimize_project_schedule solver [] = ([], Except.ok emptyResults) := by
  have hopt := hs _ σ T hsol
  have hfeas0 : (buildLP []).Feasible σ 0 := by
    refine ⟨le_refl 0, ?_, ?_, ?_⟩ <;> simp [buildLP]
  have hT : T = 0 := le_antisymm (hopt.2 σ 0 hfeas0) hopt.1.1
  rw [optimize_project_schedule, hsol, hT]
  rfl

/-- Witness for C6 (amended), instantiated with the reference solver. -/
theorem c6_amended_witness :
    optimize_project_schedule lpSolve [] = ([], Except.ok emptyResults) := by
  apply c6_amended lpSolve lpSolve_sound (esStart (buildLP []))
    (esMakespan (buildLP []))
  rw [lpSolve, if_pos (by decide : WellFormedLP (buildLP []))]

/-- C7 counterexample: for the task A with dangling predecessor Z, the
warning naming Z and A is only printed (it appears in the print log), and
the returned result is exactly the one computed for the same task without
the dangling reference — the result structure carries no warnings, so
nothing is "returned to the caller alongside the result". -/
theorem c7_counterexample :
    (optimize_project_schedule lpSolve danglingTasks).1 =
      [("Warning: Predecessor Z not found for task A")] ∧
      (optimize_project_schedule lpSolve danglingTasks).2 = Except.ok dangResults ∧
      (optimize_project_schedule lpSolve danglingFreeTasks).2 = Except.ok dangResults := by
  refine ⟨?_, ?_, ?_⟩
  · simp [optimize_dang]
  · simp [optimize_dang]
  · simp [optimize_free]

/-- C7 (amended): every unresolved predecessor reference produces a printed
warning naming the reference text and the referencing task's id (the first
component of the returned pair, modeling stdout), the edge is excluded so
solving proceeds as if the predecessor were absent, and the returned
result — which has no warnings field — depends only on the built LP and
the id/hour data of the rows, not on predecessor text. -/
theorem c7_amended (solver : LPProb → SolveOutcome) :
    (∀ (tasks : List Task), ∀ t ∈ tasks, ∀ p ∈ predsOf t,
      lookupTask tasks p = none →
        warnMsg p t.taskID ∈ (optimize_project_schedule solver tasks).1) ∧
      ∀ (tasks tasks' : List Task),
        tasks.map taskData = tasks'.map taskData →
        buildLP tasks = buildLP tasks' →
        (optimize_project_schedule solver tasks).2 =
          (optimize_project_schedule solver tasks').2 := by
  constructor
  · intro tasks t ht p hp hnone
    show warnMsg p t.taskID ∈ warnings tasks
    unfold warnings
    refine List.mem_flatMap.2 ⟨t, ht, ?_⟩
    refine List.mem_map.2 ⟨p, List.mem_filter.2 ⟨hp, ?_⟩, rfl⟩
    rw [hnone]
    rfl
  · intro tasks tasks' hdata hlp
    show (match solver (buildLP tasks) with
      | SolveOutcome.optimal σ T => Except.ok (extractResults tasks σ T)
      | SolveOutcome.notOptimal s =>
          Except.error ("Could not find optimal solution. Status: " ++ s)) =
      (match solver (buildLP tasks') with
      | SolveOutcome.optimal σ T => Except.ok (extractResults tasks' σ T)
      | SolveOutcome.notOptimal s =>
          Except.error ("Could not find optimal solution. Status: " ++ s))
    rw [← hlp]
    cases hsol : solver (buildLP tasks) with
    | optimal σ T =>
        simp only []
        rw [extract_congr σ T tasks tasks' hdata]
    | notOptimal s => rfl

/-- Witness for C7 (amended) on the dangling instance: the warning naming
Z and A is in the log, and the result equals the dangling-free result. -/
theorem c7_amended_witness :
    warnMsg ("Z") ("A") ∈ (optimize_project_schedule lpSolve danglingTasks).1 ∧
      (optimize_project_schedule lpSolve danglingTasks).2 =
        (optimize_project_schedule lpSolve danglingFreeTasks).2 := by
  constructor
  · exact (c7_amended lpSolve).1 danglingTasks dangA (by simp [danglingTasks])
      ("Z") (by rw [predsOf_dangA]; simp) lookup_dang_Z
  · exact (c7_amended lpSolve).2 danglingTasks danglingFreeTasks (by decide)
      (by rw [buildLP_dang, buildLP_free])

/-- C8: in every successful analyzed result (sound solver, conforming
sort, nonempty task set with distinct ids and nonnegative hours), every
row satisfies `float = total − endTime ≥ 0`, and some row has float
exactly 0. -/
theorem c8_float (solver : LPProb → SolveOutcome)
    (sortFn : List ARow → List ARow) (tasks : List Task)
    (hs : SoundSolver solver) (hsort : SortSpec sortFn)
    (hne : tasks ≠ [])
    (hnd : (tasks.map (fun t => t.taskID)).Nodup)
    (hh : ∀ t ∈ tasks, 0 ≤ t.bestCaseHours ∧ 0 ≤ t.expectedHours ∧
      0 ≤ t.worstCaseHours)
    (ar : AnalyzeResult)
    (har : (analyze_project_schedule solver sortFn tasks).2 = Except.ok ar) :
    (∀ row ∈ ar.schedule,
        row.float_time = ar.total_project_duration - row.end_time ∧
          0 ≤ row.float_time) ∧
      ∃ row ∈ ar.schedule, row.float_time = 0 := by
  cases hsol : solver (buildLP tasks) with
  | notOptimal s =>
      rw [analyze_project_schedule, optimize_project_schedule, hsol] at har
      cases har
  | optimal σ T =>
      have hopt := hs _ σ T hsol
      cases tasks with
      | nil => exact absurd rfl hne
      | cons t0 ts =>
          have hana : (analyze_project_schedule solver sortFn (t0 :: ts)).2 =
              Except.ok
                { total_project_duration := T
                  schedule := sortFn (floatRows
                    (extractResults (t0 :: ts) σ T).task_details)
                  optimization_status := ("Optimal") } := by
            rw [analyze_project_schedule, optimize_project_schedule, hsol]
            rfl
          rw [hana] at har
          have har' := Except.ok.inj har
          have hle := detail_end_le (t0 :: ts) σ T hnd hopt
          have hat := detail_end_attained (t0 :: ts) σ T hnd
            (fun t ht => pert_nonneg (hh t ht).1 (hh t ht).2.1 (hh t ht).2.2)
            (by simp) hopt
          set dds := (extractResults (t0 :: ts) σ T).task_details with hddsdef
          have hdds : dds = mkDetail σ t0.taskID
              ((lookupTask (t0 :: ts) t0.taskID).getD t0) ::
              ts.map (fun t => mkDetail σ t.taskID
                ((lookupTask (t0 :: ts) t.taskID).getD t)) := rfl
          set d0 := mkDetail σ t0.taskID
            ((lookupTask (t0 :: ts) t0.taskID).getD t0) with hd0
          set ds := ts.map (fun t => mkDetail σ t.taskID
            ((lookupTask (t0 :: ts) t.taskID).getD t)) with hds
          set maxEnd := ds.foldl (fun m tr => max m tr.end_time) d0.end_time
            with hmax
          have hrows : floatRows dds = dds.map (toARow maxEnd) := by
            rw [hdds]
            rfl
          have hmaxT : maxEnd = T := by
            have hub : maxEnd ≤ T := by
              refine foldl_max_le (fun tr : TaskResult => tr.end_time) ds
                d0.end_time T ?_ ?_
              · exact hle d0 (by rw [hdds]; exact List.mem_cons_self d0 ds)
              · intro x hx
                exact hle x (by rw [hdds]; exact List.mem_cons_of_mem d0 hx)
            have hlb : T ≤ maxEnd := by
              rcases hat with ⟨tr, htr, htreq⟩
              rw [hdds] at htr
              rcases List.mem_cons.1 htr with h | h
              · rw [← htreq, h]
                exact le_foldl_max (fun tr : TaskResult => tr.end_time) ds
                  d0.end_time
              · rw [← htreq]
                exact foldl_max_of_mem (fun tr : TaskResult => tr.end_time) ds
                  d0.end_time h
            exact le_antisymm hub hlb
          have hperm : ar.schedule.Perm (floatRows dds) := by
            rw [← har']
            exact (hsort (floatRows dds)).1
          constructor
          · intro row hrow
            have hrow' : row ∈ floatRows dds := (hperm.mem_iff).1 hrow
            rw [hrows] at hrow'
            rcases List.mem_map.1 hrow' with ⟨tr, htrmem, rfl⟩
            have htot : ar.total_project_duration = T := by
              rw [← har']
            constructor
            · rw [htot, hmaxT]
              rfl
            · have hend : tr.end_time ≤ T := hle tr htrmem
              show 0 ≤ maxEnd - tr.end_time
              rw [hmaxT]
              linarith
          · rcases hat with ⟨tr, htr, htreq⟩
            refine ⟨toARow maxEnd tr, ?_, ?_⟩
            · apply (hperm.mem_iff).2
              rw [hrows]
              exact List.mem_map.2 ⟨tr, htr, rfl⟩
            · show maxEnd - tr.end_time = 0
              rw [htreq, hmaxT]
              ring

/-- Witness for C8 at the spec §8 scenario with the stable conforming
sort: floats 5, 1, 0 with task C critical. -/
theorem c8_float_witness :
    (∀ row ∈ specAnalysis.schedule,
        row.float_time = specAnalysis.total_project_duration - row.end_time ∧
          0 ≤ row.float_time) ∧
      ∃ row ∈ specAnalysis.schedule, row.float_time = 0 := by
  apply c8_float lpSolve goodSort specTasks lpSolve_sound goodSort_sortSpec
    (by simp [specTasks]) (by decide)
  · intro t ht
    fin_cases ht <;> norm_num [specA, specB, specC]
  · rw [analyze_spec]

/-- C9 counterexample: `sort_values('start_time')` with the default
`kind='quicksort'` guarantees only a sorted permutation (pandas documents
only `mergesort`/`stable` as stable), and under a contract-conforming sort
the two equal-start tasks X, Y (input detail order X then Y) come out in
the analyzer's output as Y then X — relative input order of equal-start
rows is not preserved. -/
theorem c9_counterexample :
    SortSpec badSort ∧
      (optimize_project_schedule lpSolve tieTasks).2 = Except.ok tieResults ∧
      tieResults.task_details.map (fun tr => tr.taskID) = [("X"), ("Y")] ∧
      analyze_project_schedule lpSolve badSort tieTasks =
        ([], Except.ok
          { total_project_duration := 2
            schedule := [tieRowY, tieRowX]
            optimization_status := ("Optimal") }) ∧
      tieRowY.start_time = tieRowX.start_time ∧
      tieRowY.taskID = ("Y") ∧ tieRowX.taskID = ("X") :=
  ⟨badSort_sortSpec, by simp [optimize_tie], by decide, analyze_tie_bad,
    rfl, rfl, rfl⟩

/-- C9 (amended): the analyzer's successful output is ordered by ascending
`startTime` and is a permutation of the per-task float rows of the solved
result; the relative order of equal-start rows depends on the sort
algorithm and is not guaranteed by the default (non-stable) sort. -/
theorem c9_amended (solver : LPProb → SolveOutcome)
    (sortFn : List ARow → List ARow) (tasks : List Task)
    (hsort : SortSpec sortFn) (ar : AnalyzeResult)
    (har : (analyze_project_schedule solver sortFn tasks).2 = Except.ok ar) :
    ar.schedule.Pairwise (fun a b => a.start_time ≤ b.start_time) ∧
      ∃ r : Results, (optimize_project_schedule solver tasks).2 = Except.ok r ∧
        ar.schedule.Perm (floatRows r.task_details) := by
  cases hsol : solver (buildLP tasks) with
  | notOptimal s =>
      rw [analyze_project_schedule, optimize_project_schedule, hsol] at har
      cases har
  | optimal σ T =>
      cases tasks with
      | nil =>
          rw [analyze_project_schedule, optimize_project_schedule, hsol] at har
          cases har
      | cons t0 ts =>
          have hana : (analyze_project_schedule solver sortFn (t0 :: ts)).2 =
              Except.ok
                { total_project_duration := T
                  schedule := sortFn (floatRows
                    (extractResults (t0 :: ts) σ T).task_details)
                  optimization_status := ("Optimal") } := by
            rw [analyze_project_schedule, optimize_project_schedule, hsol]
            rfl
          rw [hana] at har
          have har' := Except.ok.inj har
          constructor
          · rw [← har']
            exact (hsort (floatRows (extractResults (t0 :: ts) σ T).task_details)).2
          · refine ⟨extractResults (t0 :: ts) σ T, ?_, ?_⟩
            · rw [optimize_project_schedule, hsol]
            · rw [← har']
              exact (hsort (floatRows (extractResults (t0 :: ts) σ T).task_details)).1

/-- Witness for C9 (amended) at the spec scenario with the stable
conforming sort. -/
theorem c9_amended_witness :
    specAnalysis.schedule.Pairwise (fun a b => a.start_time ≤ b.start_time) ∧
      ∃ r : Results, (optimize_project_schedule lpSolve specTasks).2 = Except.ok r ∧
        specAnalysis.schedule.Perm (floatRows r.task_details) := by
  apply c9_amended lpSolve goodSort specTasks goodSort_sortSpec specAnalysis
  rw [analyze_spec]

/-- C10 counterexample: the solver and analyzer do not leave the caller's
DataFrame unchanged — after the call it carries the new `pert_duration`
column (lines 7 and 14 assign columns of `tasks_df` in place), so the
input structure's set of fields has changed. -/
theorem c10_counterexample :
    (optimize_df lpSolve { rows := specTasks, pert_col := none }).1 ≠
      { rows := specTasks, pert_col := none } ∧
      (analyze_df lpSolve goodSort { rows := specTasks, pert_col := none }).1 ≠
        { rows := specTasks, pert_col := none } := by
  constructor
  · intro h
    have h1 := congrArg TasksDF.pert_col h
    simp [optimize_df] at h1
  · intro h
    have h1 := congrArg TasksDF.pert_col h
    simp [analyze_df, optimize_df] at h1

/-- C10 (amended): the calls mutate the shared DataFrame only by setting
the `pert_duration` column (and rewriting `taskID` with its own string
rendering): the task rows themselves are unchanged, the analyzer performs
the same mutation as the solver, and re-running on the mutated frame
yields the same outcome. -/
theorem c10_amended (solver : LPProb → SolveOutcome)
    (sortFn : List ARow → List ARow) (df : TasksDF) :
    (optimize_df solver df).1.rows = df.rows ∧
      (optimize_df solver df).1.pert_col = some (df.rows.map pert_duration) ∧
      (analyze_df solver sortFn df).1 = (optimize_df solver df).1 ∧
      optimize_df solver (optimize_df solver df).1 =
        ((optimize_df solver df).1, (optimize_df solver df).2) :=
  ⟨rfl, rfl, rfl, rfl⟩

end ProjectScheduler
